import Mathlib

/-!
Verification development for the audio-token generation core in `models.py`.

The Python source orchestrates two transformer stacks (a backbone and a
decoder) to generate multi-codebook audio frames.  We shallowly embed the
orchestration layer:

* tensors become nested `List`s (`Vec := List ℚ` for hidden/embedding
  vectors, nested lists for batched tensors); float values are modelled by
  rationals, `-Inf` entries produced by `masked_fill` by `Option ℚ`
  (`none` standing for `-Inf`);
* `exp` (used by softmax) is an abstract parameter `E : ℚ → ℚ` — the
  theorems that need it only assume positivity, which `Real.exp`
  satisfies; the per-row `logsumexp` shift of `log_softmax` is likewise an
  abstract parameter, since no proved property depends on its value;
* randomness (the `Exp(1)` noise of `sample_topk`, the uniform draw of
  `torch.multinomial`) becomes explicit input streams;
* the two transformer stacks are external collaborators (spec section 6)
  and are modelled as opaque function fields of `Model`, plus an explicit
  key/value-cache state that each forward call appends to and
  `reset_caches` clears;
* Python exceptions become `Except PyErr`; `generate_frames_batch`'s
  `try/except` becomes a `match` converting any error to `none`;
* the in-place tensor mutation of `generate_frames_batch`
  (`logits[...] = -Inf`) and the `clone()` calls are modelled with an
  explicit heap of tensor objects addressed by references, so that
  non-mutation of the caller's tensors is a provable statement.

PyTorch broadcasting of a trailing dimension (used by
`tokens[:, :, :-1] + audio_vocab_size * arange(codebooks)`) is modelled
faithfully: equal lengths zip, a length-1 side is broadcast, anything
else raises.  Out-of-range embedding-table ids and out-of-range position
indices are not modelled (embedding tables are total functions); no claim
below depends on them.
-/

deriving instance DecidableEq for Except

/-- Hidden / embedding vector: one row of a float tensor. -/
abbrev Vec := List ℚ

/-- Python exception classes raised by the modelled code paths. -/
inductive PyErr where
  | assertionError (msg : String)
  | runtimeError (msg : String)
  | indexError (msg : String)
deriving DecidableEq, Repr

/-- `e` is not an `assert` failure (used to show the "caches are not
enabled" assertion is the only assertion in the pipeline). -/
def PyErr.notAssert (e : PyErr) : Prop := ∀ msg, e ≠ PyErr.assertionError msg

/-- Effectful map over a list in the `Except` monad, stopping at the
first error (the order in which PyTorch kernels raise). -/
def mapE {α β : Type} (f : α → Except PyErr β) : List α → Except PyErr (List β)
  | [] => .ok []
  | x :: xs =>
    match f x with
    | .error e => .error e
    | .ok y =>
      match mapE f xs with
      | .error e => .error e
      | .ok ys => .ok (y :: ys)

/-- Elementwise binary operation on one tensor dimension with PyTorch
broadcasting: equal lengths zip, a length-1 operand is broadcast, any
other combination raises. -/
def bzipE {α β γ : Type} (f : α → β → Except PyErr γ) (xs : List α) (ys : List β) :
    Except PyErr (List γ) :=
  if xs.length = ys.length then mapE (fun p => f p.1 p.2) (xs.zip ys)
  else
    match xs, ys with
    | [x], ys => mapE (fun y => f x y) ys
    | xs, [y] => mapE (fun x => f x y) xs
    | _, _ => .error (.runtimeError "The size of tensor a must match the size of tensor b at non-singleton dimension")

/-- Pointwise sum of a list of vectors (`Tensor.sum(dim=2)` on one
(batch, step) cell). -/
def sumVecs : List Vec → Vec
  | [] => []
  | v :: vs => vs.foldl (fun a b => List.zipWith (· + ·) a b) v

/-- The k-th largest element of a list (`torch.topk(l, k)[0][..., -1]`):
sort descending and take entry `k - 1`. -/
def kthLargest (l : List ℚ) (k : Nat) : ℚ :=
  (l.insertionSort (· ≥ ·)).getD (k - 1) 0

/-- Tail of `argmaxIdx`: scan the remaining entries, keeping the index of
the first maximal value seen so far (`torch.argmax` tie-breaking). -/
def argmaxAux : List ℚ → Nat → Nat → ℚ → Nat
  | [], _, bi, _ => bi
  | x :: xs, i, bi, bv => if bv < x then argmaxAux xs (i + 1) i x else argmaxAux xs (i + 1) bi bv

/-- Index of the first maximal entry of a row (`torch.argmax(·, dim=-1)`). -/
def argmaxIdx : List ℚ → Nat
  | [] => 0
  | x :: xs => argmaxAux xs 1 0 x

/-- `torch.tril(torch.ones(seq_len, seq_len, dtype=bool))`: entry (i, j)
is true iff `j ≤ i`.  (`_create_causal_mask` in models.py.) -/
def _create_causal_mask (seq_len : Nat) : List (List Bool) :=
  (List.range seq_len).map fun i => (List.range seq_len).map fun j => decide (j ≤ i)

/-- `mask[input_pos, :]` for `input_pos : (batch, seq)`: gather rows of
the full causal mask at the given positions.  (`_index_causal_mask`.) -/
def _index_causal_mask (mask : List (List Bool)) (input_pos : List (List Nat)) :
    List (List (List Bool)) :=
  input_pos.map fun row => row.map fun p => mask.getD p []

/-- Softmax denominator: sum of `E` over the non-`-Inf` entries of a row
(`-Inf` contributes `exp(-Inf) = 0`). -/
def listZ (E : ℚ → ℚ) (scores : List (Option ℚ)) : ℚ :=
  ((scores.filterMap id).map E).sum

/-- `sample_topk(logits, topk, temperature)` on one row of logits, with
the `Exp(1)` noise of `_multinomial_sample_one_no_sync` passed in as
`noise` and the row's `logsumexp` shift (the constant subtracted by
`log_softmax`) passed in as `c`:  scale by temperature, keep only values
not below the `topk`-th largest (others become `-Inf` = `none`),
log-softmax then softmax, and return `argmax(probs / noise)`.
`torch.topk` raises when `topk` exceeds the row width; indexing the empty
top-k values with `-1` raises when `topk = 0`. -/
def sample_topk (E : ℚ → ℚ) (c : ℚ) (noise : List ℚ) (logits : List ℚ) (topk : Nat)
    (temperature : ℚ) : Except PyErr Nat :=
  let scaled := logits.map (· / temperature)
  if logits.length < topk then .error (.runtimeError "selected index k out of range")
  else if topk = 0 then .error (.indexError "index -1 is out of bounds for dimension 1 with size 0")
  else
    let thresh := kthLargest scaled topk
    let masked : List (Option ℚ) := scaled.map fun x => if x < thresh then none else some x
    let scores := masked.map (Option.map (fun x => x - c))
    let probs := scores.map fun s =>
      match s with
      | none => (0 : ℚ)
      | some x => E x / listZ E scores
    .ok (argmaxIdx (List.zipWith (fun p q => p / q) probs noise))

/-- `sample_topk` applied to a batch of logits rows (the tensor version in
models.py acts rowwise along `dim=-1`); `cS`/`noise` supply the abstract
logsumexp shift and the fresh exponential noise per (call, row). -/
def sampleTopkBatch (E : ℚ → ℚ) (cS : Nat → Nat → ℚ) (noise : Nat → List (List ℚ))
    (callIdx : Nat) (logitsRows : List (List ℚ)) (topk : Nat) (temperature : ℚ) :
    Except PyErr (List Nat) :=
  mapE (fun p => sample_topk E (cS callIdx p.1) ((noise callIdx).getD p.1 []) p.2 topk temperature)
    logitsRows.enum

/-- Integer token tensor of dynamic rank: the batch driver rebuilds
`curr_tokens` as a rank-2 tensor, while `forward` indexes it as rank-3. -/
inductive TTensor where
  | r3 (x : List (List (List Nat)))
  | r2 (x : List (List Nat))
deriving DecidableEq, Repr

/-- Boolean mask tensor of dynamic rank. -/
inductive MTensor where
  | r3 (x : List (List (List Bool)))
  | r2 (x : List (List Bool))
deriving DecidableEq, Repr

/-- Events observed on the decoder stack during one `generate_frame`
call: a `reset_caches()` call or one decoder forward step. -/
inductive DecEvent where
  | reset
  | step
deriving DecidableEq, Repr

/-- Constructor arguments of the `Model` (dataclass `ModelArgs`). -/
structure ModelArgs where
  text_vocab_size : Nat
  audio_vocab_size : Nat
  audio_num_codebooks : Nat
deriving DecidableEq, Repr

/-- The model: hyperparameters plus its parameterised components.  The
two transformer stacks are external collaborators (spec section 6) whose
forward passes are opaque functions of (cache contents, input embeddings,
positions, attention mask); embedding tables and linear heads are opaque
functions as well.  Cache contents are the list of input blocks fed so
far. -/
structure Model where
  args : ModelArgs
  backbone_max_seq_len : Nat
  backboneFwd : List (List (List Vec)) → List (List Vec) → List (List Nat) →
    List (List (List Bool)) → List (List Vec)
  decoderFwd : List (List (List Vec)) → List (List Vec) → List (List Nat) →
    List (List (List Bool)) → List (List Vec)
  text_embeddings : Nat → Vec
  audio_embeddings : Nat → Vec
  codebook0_head : Vec → List ℚ
  audio_head : Nat → Vec → List ℚ
  projection : Vec → Vec

/-- Mutable state owned by a `Model` instance: whether `setup_caches` has
run, the two key/value caches, and the two registered causal-mask
buffers. -/
structure GFState where
  backboneCachesEnabled : Bool
  backboneCache : List (List (List Vec))
  decoderCache : List (List (List Vec))
  backbone_causal_mask : List (List Bool)
  decoder_causal_mask : List (List Bool)
deriving DecidableEq, Repr

/-- `Model.setup_caches`: enable the backbone/decoder caches and register
the two causal-mask buffers (sized `backbone.max_seq_len` and
`audio_num_codebooks` respectively). -/
def Model.setup_caches (m : Model) : GFState :=
  { backboneCachesEnabled := true
    backboneCache := []
    decoderCache := []
    backbone_causal_mask := _create_causal_mask m.backbone_max_seq_len
    decoder_causal_mask := _create_causal_mask m.args.audio_num_codebooks }

/-- `audio_embeddings(tokens + codebook * audio_vocab_size)`
(`Model._embed_audio`). -/
def Model._embed_audio (m : Model) (codebook : Nat) (token : Nat) : Vec :=
  m.audio_embeddings (token + codebook * m.args.audio_vocab_size)

/-- Broadcast addition on the trailing dimension:
`tokens[:, :, :-1] + audio_vocab_size * arange(codebooks)` for one
(batch, step) cell. -/
def broadcastAdd (xs offs : List Nat) : Except PyErr (List Nat) :=
  if xs.length = offs.length then .ok (List.zipWith (· + ·) xs offs)
  else
    match xs, offs with
    | [x], offs => .ok (offs.map (x + ·))
    | xs, [o] => .ok (xs.map (· + o))
    | _, _ => .error (.runtimeError "The size of tensor a must match the size of tensor b at non-singleton dimension 2")

/-- The `.reshape(b, s, codebooks, -1)` step of `_embed_tokens` on one
(batch, step) cell: with `codebooks` embeddings it regroups one per
slot; with `codebooks = 1` the flattened embeddings are packed into the
single slot; any other combination cannot satisfy the reshape. -/
def regroupCell (k : Nat) (vecs : List Vec) : Except PyErr (List Vec) :=
  if vecs.length = k then .ok vecs
  else if k = 1 then .ok [vecs.flatten]
  else .error (.runtimeError "invalid reshape of audio embeddings")

/-- `torch.cat([audio_embeds, text_embeds], dim=-2)` on one cell:
concatenation along the codebook axis requires the trailing (embedding)
dimension to agree. -/
def catCell (audioSlots : List Vec) (textVec : Vec) : Except PyErr (List Vec) :=
  if audioSlots.all fun v => v.length = textVec.length then .ok (audioSlots ++ [textVec])
  else .error (.runtimeError "Sizes of tensors must match except in dimension 2")

/-- `Model._embed_tokens` on one (batch, step) cell `slots` (the
`audio_num_codebooks + 1` token slots of one step): embed the text slot
`slots[-1]`, offset-and-embed the audio slots `slots[:-1]` (with
broadcasting), reshape, and concatenate along the codebook axis.  The
real code embeds the whole text tensor before the audio tensor; staging
it per cell preserves every per-cell success value and raises exactly
when the original raises (possibly a different one of several failing
cells' errors first). -/
def Model.embedCell (m : Model) (slots : List Nat) : Except PyErr (List Vec) :=
  match slots.getLast? with
  | none => .error (.indexError "index -1 is out of bounds for dimension 2 with size 0")
  | some textTok =>
    match broadcastAdd slots.dropLast
        ((List.range m.args.audio_num_codebooks).map (· * m.args.audio_vocab_size)) with
    | .error e => .error e
    | .ok audioTok =>
      match regroupCell m.args.audio_num_codebooks (audioTok.map m.audio_embeddings) with
      | .error e => .error e
      | .ok audioSlots => catCell audioSlots (m.text_embeddings textTok)

/-- `Model._embed_tokens`: indexing `tokens[:, :, -1]` on a rank-2 tensor
raises; on a rank-3 tensor, embed every (batch, step) cell. -/
def Model.embed_tokens (m : Model) : TTensor → Except PyErr (List (List (List Vec)))
  | .r2 _ => .error (.indexError "too many indices for tensor of dimension 2")
  | .r3 t => mapE (fun row => mapE m.embedCell row) t

/-- Multiply one embedding slot by one mask scalar
(`embeds * tokens_mask.unsqueeze(-1)`, innermost broadcast). -/
def maskSlotMul (v : Vec) (b : Bool) : Vec :=
  v.map fun q => q * (if b then 1 else 0)

/-- Slot-axis multiply of one cell's embeddings by one cell's mask bits,
with broadcasting on the slot dimension. -/
def maskCellMul (embSlots : List Vec) (maskSlots : List Bool) : Except PyErr (List Vec) :=
  bzipE (fun v bb => .ok (maskSlotMul v bb)) embSlots maskSlots

/-- The embedding-fusion path shared by `generate_frame` and `forward`:
`embeds = _embed_tokens(tokens)`, `masked = embeds * mask.unsqueeze(-1)`,
`h = masked.sum(dim=2)`.  A rank-2 mask (produced by the batch driver)
right-aligns one dimension lower; that branch is modelled with the same
broadcasting rules. -/
def Model.fuseTokens (m : Model) (tokens : TTensor) (mask : MTensor) :
    Except PyErr (List (List Vec)) :=
  match m.embed_tokens tokens with
  | .error e => .error e
  | .ok embeds =>
    match mask with
    | .r3 mrows =>
      match bzipE (fun erow mrow => bzipE maskCellMul erow mrow) embeds mrows with
      | .error e => .error e
      | .ok me => .ok (me.map fun row => row.map sumVecs)
    | .r2 mrows =>
      let bu := mrows.map fun r => r.map fun bb => [bb]
      match mapE (fun arow =>
          bzipE (fun acell burow =>
              bzipE (fun avec bucell =>
                  match bucell with
                  | [bb] => .ok (maskSlotMul avec bb)
                  | _ => .error (.runtimeError "The size of tensor a must match the size of tensor b at non-singleton dimension"))
                acell burow)
            arow bu) embeds with
      | .error e => .error e
      | .ok me => .ok (me.map fun row => row.map sumVecs)

/-- The shared first stage of `generate_frame` and `forward` (models.py
duplicates these lines verbatim): assert the backbone caches are enabled,
gather the causal-mask rows at `input_pos`, fuse the token embeddings,
run the backbone (appending to its cache), and take the final step's
hidden state `h[:, -1, :]`. -/
def Model.forwardCore (m : Model) (st : GFState) (tokens : TTensor) (mask : MTensor)
    (input_pos : List (List Nat)) : Except PyErr (List Vec × GFState) :=
  if st.backboneCachesEnabled then
    let curr_backbone_mask := _index_causal_mask st.backbone_causal_mask input_pos
    match m.fuseTokens tokens mask with
    | .error e => .error e
    | .ok fused =>
      let h := m.backboneFwd st.backboneCache fused input_pos curr_backbone_mask
      .ok (h.map (fun row => row.getLastD []),
        { st with backboneCache := st.backboneCache ++ [fused] })
  else .error (.assertionError "backbone caches are not enabled")

/-- `Model.forward`: the single-step path used by the batch driver —
backbone plus codebook-0 head, no sampling, no decoder. -/
def Model.forward (m : Model) (st : GFState) (tokens : TTensor) (mask : MTensor)
    (input_pos : List (List Nat)) : Except PyErr (List (List ℚ) × GFState) :=
  match m.forwardCore st tokens mask input_pos with
  | .error e => .error e
  | .ok (last_h, st') => .ok (last_h.map m.codebook0_head, st')

/-- Result of `generate_frame`: the sampled frame
(batch × audio_num_codebooks), the post-call model state, and the trace
of decoder-stack events observed during the call. -/
structure FrameResult where
  sample : List (List Nat)
  state : GFState
  trace : List DecEvent
deriving DecidableEq, Repr

/-- Loop state of `generate_frame`'s codebook-expansion loop. -/
structure LoopSt where
  h : List (List Vec)
  sample : List (List Nat)
  pos : List (List Nat)
  state : GFState
  trace : List DecEvent
deriving DecidableEq, Repr

/-- One iteration of the codebook-expansion loop
(`for i in range(1, audio_num_codebooks)` in `generate_frame`): index the
decoder causal mask at the local positions, run the decoder on the
projected context (appending to the decoder cache), sample codebook `i`
from `audio_head[i-1]`, embed it, and advance the local position. -/
def Model.decodeStep (m : Model) (E : ℚ → ℚ) (cS : Nat → Nat → ℚ)
    (noise : Nat → List (List ℚ)) (temperature : ℚ) (topk : Nat) (ls : LoopSt) (i : Nat) :
    Except PyErr LoopSt :=
  let curr_decoder_mask := _index_causal_mask ls.state.decoder_causal_mask ls.pos
  let proj := ls.h.map (List.map m.projection)
  let decoder_h := m.decoderFwd ls.state.decoderCache proj ls.pos curr_decoder_mask
  let ci_logits := (decoder_h.map fun row => row.getLastD []).map (m.audio_head (i - 1))
  match sampleTopkBatch E cS noise i ci_logits topk temperature with
  | .error e => .error e
  | .ok ci_sample =>
    .ok { h := (ci_sample.map (m._embed_audio i)).map fun e => [e]
          sample := List.zipWith (fun s t => s ++ [t]) ls.sample ci_sample
          pos := ls.pos.map fun row => [row.getLastD 0 + 1]
          state := { ls.state with decoderCache := ls.state.decoderCache ++ [proj] }
          trace := ls.trace ++ [DecEvent.step] }

/-- `Model.generate_frame`: backbone step, codebook-0 sampling from the
codebook-0 head, decoder-cache reset, then the codebook-expansion loop.
`E`, `cS` and `noise` are the abstract exponential / logsumexp /
sampling-noise inputs (one sampling call per codebook, call index =
codebook index). -/
def Model.generate_frame (m : Model) (E : ℚ → ℚ) (cS : Nat → Nat → ℚ)
    (noise : Nat → List (List ℚ)) (st : GFState) (tokens : List (List (List Nat)))
    (tokens_mask : List (List (List Bool))) (input_pos : List (List Nat))
    (temperature : ℚ) (topk : Nat) : Except PyErr FrameResult :=
  match m.forwardCore st (.r3 tokens) (.r3 tokens_mask) input_pos with
  | .error e => .error e
  | .ok (last_h, st1) =>
    let c0_logits := last_h.map m.codebook0_head
    match sampleTopkBatch E cS noise 0 c0_logits topk temperature with
    | .error e => .error e
    | .ok c0_sample =>
      let c0_embed := c0_sample.map (m._embed_audio 0)
      let curr_h := List.zipWith (fun lh ce => [lh, ce]) last_h c0_embed
      let curr_pos := curr_h.map fun _ => [0, 1]
      match (List.range' 1 (m.args.audio_num_codebooks - 1)).foldlM
          (m.decodeStep E cS noise temperature topk)
          { h := curr_h
            sample := c0_sample.map fun t => [t]
            pos := curr_pos
            state := { st1 with decoderCache := [] }
            trace := [DecEvent.reset] } with
      | .error e => .error e
      | .ok fin => .ok { sample := fin.sample, state := fin.state, trace := fin.trace }

/-- A tensor object living on the heap of `generate_frames_batch`: the
value kinds that function allocates or receives (integer and boolean
tensors of rank 2/3, and float tensors of rank 2 whose entries may be
`-Inf` after the in-place `masked_fill`). -/
inductive TVal where
  | n3 (x : List (List (List Nat)))
  | n2 (x : List (List Nat))
  | b3 (x : List (List (List Bool)))
  | b2 (x : List (List Bool))
  | oq2 (x : List (List (Option ℚ)))
deriving DecidableEq, Repr

/-- Heap of tensor objects; variables of the Python code hold references
(indices) into it. -/
abbrev Heap := List TVal

def heapRead (σ : Heap) (r : Nat) : TVal := σ.getD r (.n2 [])

def heapAlloc (σ : Heap) (v : TVal) : Heap × Nat := (σ ++ [v], σ.length)

def heapWrite (σ : Heap) (r : Nat) (v : TVal) : Heap := σ.set r v

/-- Use a heap value as the integer token tensor fed to `forward`;
non-integer tensors would be rejected by the embedding lookup. -/
def asTokens : TVal → Except PyErr TTensor
  | .n3 x => .ok (.r3 x)
  | .n2 x => .ok (.r2 x)
  | _ => .error (.runtimeError "embedding indices must be an integer tensor")

/-- Use a heap value as the boolean mask tensor fed to `forward`. -/
def asMask : TVal → Except PyErr MTensor
  | .b3 x => .ok (.r3 x)
  | .b2 x => .ok (.r2 x)
  | _ => .error (.runtimeError "mask must be a boolean tensor")

/-- Use a heap value as the integer position tensor fed to `forward`. -/
def asPos : TVal → Except PyErr (List (List Nat))
  | .n2 x => .ok x
  | _ => .error (.runtimeError "positions must be a rank-2 integer tensor")

/-- `torch.softmax(row, dim=-1)` with `-Inf` entries contributing zero
weight; `E` is the abstract exponential. -/
def softmaxRow (E : ℚ → ℚ) (row : List (Option ℚ)) : List ℚ :=
  row.map fun s =>
    match s with
    | none => (0 : ℚ)
    | some x => E x / listZ E row

/-- Inverse-CDF pick for `torch.multinomial(probs, 1)` at uniform draw
`u`: the first index whose cumulative probability exceeds `u`. -/
def multinomialPick : List ℚ → ℚ → Nat
  | [], _ => 0
  | [_], _ => 0
  | p :: ps, u => if u < p then 0 else multinomialPick ps (u - p) + 1

/-- `torch.multinomial(probs, num_samples=1)` on one row: rejects
negative weights and all-zero rows, otherwise draws by inverse CDF. -/
def multinomialRow (probs : List ℚ) (u : ℚ) : Except PyErr Nat :=
  if probs.any (fun p => decide (p < 0)) || decide (probs.sum ≤ 0) then
    .error (.runtimeError "invalid multinomial distribution")
  else .ok (multinomialPick probs u)

/-- Result of the batch-generation loop: final heap, final model state,
and either the accumulated samples or the first uncaught error. -/
structure BatchOut where
  heap : Heap
  state : GFState
  result : Except PyErr (List (List (List Nat)))
deriving Repr


/-- The logits staging of one `generate_frames_batch` iteration:
allocate the object returned by `forward`, and when `temperature > 0`
rebind `logits` to a freshly allocated divided tensor.  Returns the heap,
the reference the local `logits` variable holds, and its value. -/
def stageLogits (σ : Heap) (temperature : ℚ) (logits0 : List (List ℚ)) :
    Heap × Nat × List (List ℚ) :=
  let afterF := heapAlloc σ (.oq2 (logits0.map fun row => row.map some))
  if 0 < temperature then
    let divided := logits0.map fun row => row.map (· / temperature)
    let afterT := heapAlloc afterF.1 (.oq2 (divided.map fun row => row.map some))
    (afterT.1, afterT.2, divided)
  else (afterF.1, afterF.2, logits0)

/-- The top-k staging of one `generate_frames_batch` iteration: when
`topk > 0`, `torch.topk` raises if `topk` exceeds a row width, otherwise
the entries below each row's `topk`-th largest value are masked to
`-Inf` *in place* on the logits object. -/
def stageTopk (σ : Heap) (lRef : Nat) (topk : Nat) (divided : List (List ℚ)) :
    Except PyErr (Heap × List (List (Option ℚ))) :=
  if 0 < topk then
    if divided.any fun row => decide (row.length < topk) then
      .error (.runtimeError "selected index k out of range")
    else
      let masked := divided.map fun row =>
        let kth := kthLargest row topk
        row.map fun x => if x < kth then none else some x
      .ok (heapWrite σ lRef (.oq2 masked), masked)
  else .ok (σ, divided.map fun row => row.map some)

/-- Outcome of one `generate_frames_batch` loop iteration: an uncaught
exception, the all-zero sentinel (`break`), or the next iteration's
tensors. -/
inductive BatchStep where
  | fail (σ : Heap) (st : GFState) (e : PyErr)
  | stop (σ : Heap) (st : GFState)
  | next (σ : Heap) (st : GFState) (tR mR pR : Nat) (sample : List (List Nat))

/-- The heap carried by a loop-iteration outcome. -/
def BatchStep.heap : BatchStep → Heap
  | .fail σ _ _ => σ
  | .stop σ _ => σ
  | .next σ _ _ _ _ _ => σ

/-- One iteration of the `for i in range(num_frames)` loop of
`generate_frames_batch`: read the current tensors from the heap, run
`forward`, stage the logits and the in-place top-k masking, softmax, draw
one sample per row, stop on the all-zero sentinel, otherwise rebuild the
next iteration's tensors — `cat([sample, zeros(1, 1)], dim=1)` (rank 2,
and only well-formed for batch size 1), the matching rank-2 mask, and
`curr_pos[:, -1:] + 1`. -/
def Model.batchIter (m : Model) (E : ℚ → ℚ) (u : Nat → Nat → ℚ) (temperature : ℚ)
    (topk : Nat) (σ : Heap) (st : GFState) (tR mR pR : Nat) (ci : Nat) : BatchStep :=
  match asTokens (heapRead σ tR) with
  | .error e => .fail σ st e
  | .ok tok =>
  match asMask (heapRead σ mR) with
  | .error e => .fail σ st e
  | .ok mask =>
  match asPos (heapRead σ pR) with
  | .error e => .fail σ st e
  | .ok pos =>
  match m.forward st tok mask pos with
  | .error e => .fail σ st e
  | .ok (logits0, st') =>
    let sl := stageLogits σ temperature logits0
    match stageTopk sl.1 sl.2.1 topk sl.2.2 with
    | .error e => .fail sl.1 st' e
    | .ok (σ2, masked) =>
      let probs := masked.map (softmaxRow E)
      match mapE (fun p => multinomialRow p.2 (u ci p.1)) probs.enum with
      | .error e => .fail σ2 st' e
      | .ok draws =>
        let sample : List (List Nat) := draws.map fun s => [s]
        let afterS := heapAlloc σ2 (.n2 sample)
        if sample.all fun row => row.all (· = 0) then .stop afterS.1 st'
        else if sample.length = 1 then
          let afterTok := heapAlloc afterS.1 (.n2 [sample.headD [] ++ [0]])
          let afterMask := heapAlloc afterTok.1 (.b2 [[true, false]])
          let newPos := pos.map fun r =>
            match r.getLast? with
            | some x => [x + 1]
            | none => []
          let afterPos := heapAlloc afterMask.1 (.n2 newPos)
          .next afterPos.1 st' afterTok.2 afterMask.2 afterPos.2 sample
        else .fail afterS.1 st' (.runtimeError "Sizes of tensors must match except in dimension 1")

/-- The `for i in range(num_frames)` loop of `generate_frames_batch`:
one `batchIter` per frame, accumulating accepted samples, stopping early
at the sentinel, and surfacing the first uncaught exception. -/
def Model.batchLoop (m : Model) (E : ℚ → ℚ) (u : Nat → Nat → ℚ) (temperature : ℚ)
    (topk : Nat) : Nat → Heap → GFState → Nat → Nat → Nat → List (List (List Nat)) → Nat →
    BatchOut
  | 0, σ, st, _, _, _, acc, _ => ⟨σ, st, .ok acc⟩
  | fuel + 1, σ, st, tRef, mRef, pRef, acc, callIdx =>
    match m.batchIter E u temperature topk σ st tRef mRef pRef callIdx with
    | .fail σ' st' e => ⟨σ', st', .error e⟩
    | .stop σ' st' => ⟨σ', st', .ok acc⟩
    | .next σ' st' tR' mR' pR' sample =>
      m.batchLoop E u temperature topk fuel σ' st' tR' mR' pR' (acc ++ [sample]) (callIdx + 1)

/-- The `try:` block of `generate_frames_batch`: clone the three caller
tensors, run the loop, and on success return `None` for an empty
accumulator or the `dim=0` concatenation of the accumulated samples. -/
def Model.generate_frames_batch_try (m : Model) (E : ℚ → ℚ) (u : Nat → Nat → ℚ)
    (σ : Heap) (st : GFState) (tokensRef maskRef posRef : Nat) (temperature : ℚ)
    (topk : Nat) (num_frames : Nat) : Heap × GFState × Except PyErr (Option (List (List Nat))) :=
  let c1 := heapAlloc σ (heapRead σ tokensRef)
  let c2 := heapAlloc c1.1 (heapRead c1.1 maskRef)
  let c3 := heapAlloc c2.1 (heapRead c2.1 posRef)
  match m.batchLoop E u temperature topk num_frames c3.1 st c1.2 c2.2 c3.2 [] 0 with
  | ⟨σ', st', .error e⟩ => (σ', st', .error e)
  | ⟨σ', st', .ok acc⟩ =>
    (σ', st', .ok (if acc.isEmpty then none else some acc.flatten))

/-- `Model.generate_frames_batch`: the `try` block wrapped in
`except Exception: return None` — every error of the underlying
computation is absorbed into a `None` result. -/
def Model.generate_frames_batch (m : Model) (E : ℚ → ℚ) (u : Nat → Nat → ℚ)
    (σ : Heap) (st : GFState) (tokensRef maskRef posRef : Nat) (temperature : ℚ)
    (topk : Nat) (num_frames : Nat) : Heap × GFState × Option (List (List Nat)) :=
  match m.generate_frames_batch_try E u σ st tokensRef maskRef posRef temperature topk num_frames with
  | (σ', st', .error _) => (σ', st', none)
  | (σ', st', .ok r) => (σ', st', r)

/-! ## Claims about the causal-mask builder -/

lemma countP_le_range (n i : Nat) :
    (List.range n).countP (fun j => decide (j ≤ i)) = min (i + 1) n := by
  induction n with
  | zero => simp
  | succ n ih =>
    rw [List.range_succ, List.countP_append, ih]
    by_cases h : n ≤ i <;> simp [h] <;> omega

/-- C7: for every `seq_len ≥ 1`, `_create_causal_mask seq_len` is a
`seq_len × seq_len` boolean matrix whose entry (i, j) is true iff
`j ≤ i`, and whose row `i` contains exactly `i + 1` true entries. -/
theorem claim_C7_causal_mask_lower_triangular (n : Nat) (hn : 1 ≤ n) :
    (_create_causal_mask n).length = n ∧
    ∀ i, i < n →
      ((_create_causal_mask n).getD i []).length = n ∧
      (∀ j, j < n → (((_create_causal_mask n).getD i []).getD j false = true ↔ j ≤ i)) ∧
      ((_create_causal_mask n).getD i []).count true = i + 1 := by
  refine ⟨by simp [_create_causal_mask], fun i hi => ?_⟩
  have hrow : (_create_causal_mask n).getD i [] = (List.range n).map fun j => decide (j ≤ i) := by
    rw [List.getD_eq_getElem _ _ (by simpa [_create_causal_mask] using hi)]
    simp [_create_causal_mask]
  refine ⟨by rw [hrow]; simp, fun j hj => ?_, ?_⟩
  · rw [hrow, List.getD_eq_getElem _ _ (by simpa using hj)]
    simp
  · rw [hrow, List.count_eq_countP, List.countP_map]
    have : ((fun x => x == true) ∘ fun j => decide (j ≤ i)) = fun j => decide (j ≤ i) := by
      funext j
      by_cases h : j ≤ i <;> simp [h]
    rw [this, countP_le_range]
    omega

/-- C7 witness: the property instantiated at `seq_len = 3`. -/
theorem claim_C7_witness :
    (_create_causal_mask 3).length = 3 ∧
    ∀ i, i < 3 →
      ((_create_causal_mask 3).getD i []).length = 3 ∧
      (∀ j, j < 3 → (((_create_causal_mask 3).getD i []).getD j false = true ↔ j ≤ i)) ∧
      ((_create_causal_mask 3).getD i []).count true = i + 1 :=
  claim_C7_causal_mask_lower_triangular 3 (by norm_num)

/-- C8: gathering the rows of a square `seq_len × seq_len` mask at the
full in-order position vector `[0, ..., seq_len - 1]` (one batch row)
reproduces the mask exactly. -/
theorem claim_C8_index_mask_roundtrip (mask : List (List Bool))
    (hsq : ∀ row ∈ mask, row.length = mask.length) :
    _index_causal_mask mask [List.range mask.length] = [mask] := by
  unfold _index_causal_mask
  simp only [List.map_cons, List.map_nil]
  congr 1
  apply List.ext_getElem
  · simp
  · intro i h1 h2
    have hi : i < mask.length := by simpa using h2
    simp only [List.getElem_map, List.getElem_range]
    exact List.getD_eq_getElem _ _ hi

/-- C8 witness: the round-trip identity on a concrete 2 × 2 mask. -/
theorem claim_C8_witness :
    _index_causal_mask [[true, false], [true, true]]
      [List.range ([[true, false], [true, true]] : List (List Bool)).length] =
      [[[true, false], [true, true]]] :=
  claim_C8_index_mask_roundtrip [[true, false], [true, true]] (by decide)

/-! ## Claim about `sample_topk` -/

lemma getD_append_self (l l' : List ℚ) (x : ℚ) : (l ++ x :: l').getD l.length 0 = x := by
  induction l with
  | nil => simp
  | cons a as ih => simpa using ih

lemma argmaxAux_spec (xs : List ℚ) :
    ∀ (pre : List ℚ) (bi : Nat) (bv : ℚ), bi < pre.length →
      (pre ++ xs).getD bi 0 = bv → (∀ t, t < pre.length → pre.getD t 0 ≤ bv) →
      argmaxAux xs pre.length bi bv < (pre ++ xs).length ∧
      ∀ t, t < (pre ++ xs).length →
        (pre ++ xs).getD t 0 ≤ (pre ++ xs).getD (argmaxAux xs pre.length bi bv) 0 := by
  induction xs with
  | nil =>
    intro pre bi bv hbi hval hmax
    simp only [argmaxAux, List.append_nil] at *
    exact ⟨hbi, fun t ht => by rw [hval]; exact hmax t ht⟩
  | cons x xs ih =>
    intro pre bi bv hbi hval hmax
    have hassoc : (pre ++ [x]) ++ xs = pre ++ x :: xs := by simp
    have hlen1 : (pre ++ [x]).length = pre.length + 1 := by simp
    by_cases hc : bv < x
    · have harg2 : ((pre ++ [x]) ++ xs).getD pre.length 0 = x := by
        rw [hassoc]; exact getD_append_self pre xs x
      have harg3 : ∀ t, t < (pre ++ [x]).length → (pre ++ [x]).getD t 0 ≤ x := by
        intro t ht
        rcases Nat.lt_or_ge t pre.length with h | h
        · rw [List.getD_append _ _ _ _ h]
          exact le_of_lt (lt_of_le_of_lt (hmax t h) hc)
        · have ht' : t = pre.length := by rw [hlen1] at ht; omega
          subst ht'
          exact le_of_eq (getD_append_self pre [] x)
      have h2 := ih (pre ++ [x]) pre.length x (by simp) harg2 harg3
      rw [hlen1, hassoc] at h2
      simpa [argmaxAux, if_pos hc] using h2
    · have harg2 : ((pre ++ [x]) ++ xs).getD bi 0 = bv := by rw [hassoc]; exact hval
      have harg3 : ∀ t, t < (pre ++ [x]).length → (pre ++ [x]).getD t 0 ≤ bv := by
        intro t ht
        rcases Nat.lt_or_ge t pre.length with h | h
        · rw [List.getD_append _ _ _ _ h]
          exact hmax t h
        · have ht' : t = pre.length := by rw [hlen1] at ht; omega
          subst ht'
          rw [getD_append_self pre [] x]
          exact not_lt.mp hc
      have h2 := ih (pre ++ [x]) bi bv (by rw [hlen1]; omega) harg2 harg3
      rw [hlen1, hassoc] at h2
      simpa [argmaxAux, if_neg hc] using h2

lemma argmaxIdx_spec (l : List ℚ) (hne : l ≠ []) :
    argmaxIdx l < l.length ∧ ∀ t, t < l.length → l.getD t 0 ≤ l.getD (argmaxIdx l) 0 := by
  cases l with
  | nil => exact absurd rfl hne
  | cons x xs =>
    have h := argmaxAux_spec xs [x] 0 x (by simp) (by simp)
      (by intro t ht; simp at ht; subst ht; simp)
    simpa [argmaxIdx] using h

lemma exists_mem_ge_kthLargest (l : List ℚ) (k : Nat) (hk1 : 1 ≤ k) (hk2 : k ≤ l.length) :
    ∃ x ∈ l, kthLargest l k ≤ x := by
  have hperm := List.perm_insertionSort (· ≥ ·) l
  have hsort := List.sorted_insertionSort (· ≥ ·) l
  have hlen : (l.insertionSort (· ≥ ·)).length = l.length := hperm.length_eq
  have h0 : 0 < (l.insertionSort (· ≥ ·)).length := by omega
  have hk : k - 1 < (l.insertionSort (· ≥ ·)).length := by omega
  refine ⟨(l.insertionSort (· ≥ ·)).get ⟨0, h0⟩, hperm.mem_iff.mp (List.get_mem _ _ _), ?_⟩
  rw [kthLargest, List.getD_eq_getElem _ _ hk]
  rcases Nat.eq_zero_or_pos (k - 1) with h | h
  · simp [h, List.get_eq_getElem]
  · have := hsort.rel_get_of_lt (a := ⟨0, h0⟩) (b := ⟨k - 1, hk⟩) (by simpa using h)
    simpa [List.get_eq_getElem] using this

lemma getD_map_of_lt {α β : Type} (f : α → β) (l : List α) (i : Nat) (d : α) (d' : β)
    (hi : i < l.length) : (l.map f).getD i d' = f (l.getD i d) := by
  rw [List.getD_eq_getElem _ _ (by simpa using hi), List.getD_eq_getElem _ _ hi,
    List.getElem_map]

lemma getD_zipWith_of_lt (f : ℚ → ℚ → ℚ) (l1 l2 : List ℚ) (i : Nat)
    (h1 : i < l1.length) (h2 : i < l2.length) :
    (List.zipWith f l1 l2).getD i 0 = f (l1.getD i 0) (l2.getD i 0) := by
  rw [List.getD_eq_getElem _ _ (by rw [List.length_zipWith]; omega),
    List.getD_eq_getElem _ _ h1, List.getD_eq_getElem _ _ h2, List.getElem_zipWith]

lemma getD_mem_of_lt {α : Type} (l : List α) (i : Nat) (d : α) (hi : i < l.length) :
    l.getD i d ∈ l := by
  rw [List.getD_eq_getElem _ _ hi]
  exact List.getElem_mem hi

lemma getD_map_div (logits : List ℚ) (temperature : ℚ) (i : Nat) (hi : i < logits.length) :
    (logits.map fun x => x / temperature).getD i 0 = logits.getD i 0 / temperature := by
  rw [List.getD_eq_getElem _ _ (by simpa using hi), List.getD_eq_getElem _ _ hi,
    List.getElem_map]

lemma argmax_ratio_keeps_unmasked (E : ℚ → ℚ) (scores : List (Option ℚ)) (noise : List ℚ)
    (hE : ∀ x, 0 < E x) (hlen : noise.length = scores.length) (hpos : ∀ x ∈ noise, 0 < x)
    (jstar : Nat) (hj : jstar < scores.length) (hjs : scores.getD jstar none ≠ none) :
    argmaxIdx (List.zipWith (fun p q => p / q)
      (scores.map fun s => match s with | none => (0 : ℚ) | some x => E x / listZ E scores)
      noise) < scores.length ∧
    scores.getD (argmaxIdx (List.zipWith (fun p q => p / q)
      (scores.map fun s => match s with | none => (0 : ℚ) | some x => E x / listZ E scores)
      noise)) none ≠ none := by
  set probs := scores.map fun s => match s with | none => (0 : ℚ) | some x => E x / listZ E scores
    with hprobs
  set ratios := List.zipWith (fun p q => p / q) probs noise with hratios
  have hpl : probs.length = scores.length := by rw [hprobs]; simp
  have hrl : ratios.length = scores.length := by
    rw [hratios, List.length_zipWith]; omega
  obtain ⟨y, hy⟩ : ∃ y, scores.getD jstar none = some y := by
    cases h : scores.getD jstar none
    · exact absurd h hjs
    · exact ⟨_, rfl⟩
  have hymem : y ∈ scores.filterMap id := by
    refine List.mem_filterMap.mpr ⟨some y, ?_, rfl⟩
    rw [← hy]
    exact getD_mem_of_lt scores jstar none hj
  have hZ : 0 < listZ E scores := by
    apply List.sum_pos
    · intro x hx
      obtain ⟨a, _, rfl⟩ := List.mem_map.mp hx
      exact hE a
    · intro hcon
      rw [List.map_eq_nil_iff] at hcon
      rw [hcon] at hymem
      simp at hymem
  have hpj : 0 < probs.getD jstar 0 := by
    rw [hprobs, getD_map_of_lt _ _ _ none _ hj, hy]
    exact div_pos (hE y) hZ
  have hnj : 0 < noise.getD jstar 0 :=
    hpos _ (getD_mem_of_lt noise jstar 0 (by omega))
  have hrj : 0 < ratios.getD jstar 0 := by
    rw [hratios, getD_zipWith_of_lt _ _ _ _ (by omega) (by omega)]
    exact div_pos hpj hnj
  have hner : ratios ≠ [] := by
    intro h
    rw [h] at hrl
    simp at hrl
    omega
  obtain ⟨hilt, hmax⟩ := argmaxIdx_spec ratios hner
  set I := argmaxIdx ratios with hI
  have hi : I < scores.length := by omega
  refine ⟨hi, ?_⟩
  intro hcon
  have hri : 0 < ratios.getD I 0 :=
    lt_of_lt_of_le hrj (hmax jstar (by omega))
  have hpi : probs.getD I 0 = 0 := by
    rw [hprobs, getD_map_of_lt _ _ _ none _ hi, hcon]
  have hz : ratios.getD I 0 = 0 := by
    rw [hratios, getD_zipWith_of_lt _ _ _ _ (by omega) (by omega), hpi]
    simp
  rw [hz] at hri
  exact absurd hri (lt_irrefl 0)

lemma unmasked_getD_ge (scaled : List ℚ) (th c : ℚ) (i : Nat) (hi : i < scaled.length)
    (h : ((scaled.map fun x => if x < th then none else some x).map
      (Option.map fun x => x - c)).getD i none ≠ none) :
    th ≤ scaled.getD i 0 := by
  rw [getD_map_of_lt _ _ _ none _ (by simpa using hi),
    getD_map_of_lt _ _ _ 0 _ hi] at h
  by_cases hlt : scaled.getD i 0 < th
  · rw [if_pos hlt] at h
    simp at h
  · exact not_lt.mp hlt

/-- C6: `sample_topk` (with the exponential abstracted as any positive
function, the logsumexp shift arbitrary, and the `Exp(1)` noise modelled
as an input of positive rationals) always returns an in-range index whose
temperature-scaled logit is at least the row's `topk`-th largest scaled
logit — i.e. the sample is among the row's `topk` largest values. -/
theorem claim_C6_sample_topk_stays_in_topk (E : ℚ → ℚ) (c : ℚ) (noise logits : List ℚ)
    (topk : Nat) (temperature : ℚ) (hE : ∀ x, 0 < E x) (htemp : 0 < temperature)
    (hk1 : 1 ≤ topk) (hk2 : topk ≤ logits.length) (hlen : noise.length = logits.length)
    (hpos : ∀ x ∈ noise, 0 < x) :
    ∃ i, sample_topk E c noise logits topk temperature = Except.ok i ∧ i < logits.length ∧
      kthLargest (logits.map fun x => x / temperature) topk ≤ logits.getD i 0 / temperature := by
  have hnl : ¬ logits.length < topk := not_lt.mpr hk2
  have hnz : ¬ topk = 0 := by omega
  simp only [sample_topk, if_neg hnl, if_neg hnz]
  set scaled := logits.map fun x => x / temperature with hscaled
  set scores := (scaled.map fun x => if x < kthLargest scaled topk then none else some x).map
    (Option.map fun x => x - c) with hscores
  have hsl : scaled.length = logits.length := by rw [hscaled]; simp
  have hscl : scores.length = logits.length := by rw [hscores]; simp [hsl]
  obtain ⟨xmax, hxmem, hxge⟩ := exists_mem_ge_kthLargest scaled topk hk1 (by omega)
  obtain ⟨jstar, hjlt, hjval⟩ := List.mem_iff_getElem.mp hxmem
  have hjval' : scaled.getD jstar 0 = xmax := by
    rw [List.getD_eq_getElem _ _ hjlt]
    exact hjval
  have hjs : scores.getD jstar none ≠ none := by
    rw [hscores, getD_map_of_lt _ _ _ none _ (by simpa using hjlt),
      getD_map_of_lt _ _ _ 0 _ hjlt, hjval', if_neg (not_lt.mpr hxge)]
    simp
  obtain ⟨hilt, hiok⟩ := argmax_ratio_keeps_unmasked E scores noise hE (by omega) hpos
    jstar (by omega) hjs
  refine ⟨argmaxIdx (List.zipWith (fun p q => p / q)
      (scores.map fun s => match s with | none => (0 : ℚ) | some x => E x / listZ E scores)
      noise), rfl, by omega, ?_⟩
  have hth := unmasked_getD_ge scaled (kthLargest scaled topk) c
    (argmaxIdx (List.zipWith (fun p q => p / q)
      (scores.map fun s => match s with | none => (0 : ℚ) | some x => E x / listZ E scores)
      noise)) (by omega) (by rw [← hscores]; exact hiok)
  rw [← getD_map_div logits temperature _ (by omega), ← hscaled]
  exact hth

/-- C6 witness: `sample_topk` at a concrete row, temperature, top-k and
noise, with `exp` instantiated by a concrete positive function. -/
theorem claim_C6_witness :
    ∃ i, sample_topk (fun _ => 1) 0 [1, 1, 1] [0, 1, 2] 2 1 = Except.ok i ∧
      i < ([0, 1, 2] : List ℚ).length ∧
      kthLargest (([0, 1, 2] : List ℚ).map fun x => x / 1) 2 ≤
        ([0, 1, 2] : List ℚ).getD i 0 / 1 :=
  claim_C6_sample_topk_stays_in_topk (fun _ => 1) 0 [1, 1, 1] [0, 1, 2] 2 1
    (fun _ => by norm_num) (by norm_num) (by norm_num) (by norm_num) (by norm_num)
    (by intro x hx; fin_cases hx <;> norm_num)

/-! ## Claims about `generate_frame` -/

lemma forwardCore_decoderCache_irrelevant (m : Model) (st : GFState)
    (d : List (List (List Vec))) (tokens : TTensor) (mask : MTensor)
    (input_pos : List (List Nat)) :
    m.forwardCore { st with decoderCache := d } tokens mask input_pos =
      (m.forwardCore st tokens mask input_pos).map
        (fun r => (r.1, { r.2 with decoderCache := d })) := by
  unfold Model.forwardCore
  cases hb : st.backboneCachesEnabled
  · simp [hb, Except.map]
  · cases hf : m.fuseTokens tokens mask <;> simp [hb, hf, Except.map]

lemma decodeStep_trace (m : Model) (E : ℚ → ℚ) (cS : Nat → Nat → ℚ)
    (noise : Nat → List (List ℚ)) (temperature : ℚ) (topk : Nat) (ls : LoopSt) (i : Nat)
    (ls' : LoopSt) (h : m.decodeStep E cS noise temperature topk ls i = .ok ls') :
    ls'.trace = ls.trace ++ [DecEvent.step] := by
  simp only [Model.decodeStep] at h
  split at h
  · exact absurd h (by simp)
  · cases h
    rfl

lemma foldlM_decodeSteps_trace (m : Model) (E : ℚ → ℚ) (cS : Nat → Nat → ℚ)
    (noise : Nat → List (List ℚ)) (temperature : ℚ) (topk : Nat) :
    ∀ (l : List Nat) (init fin : LoopSt),
      List.foldlM (m.decodeStep E cS noise temperature topk) init l = .ok fin →
      fin.trace = init.trace ++ List.replicate l.length DecEvent.step := by
  intro l
  induction l with
  | nil =>
    intro init fin h
    rw [List.foldlM_nil] at h
    cases h
    simp
  | cons x xs ih =>
    intro init fin h
    rw [List.foldlM_cons] at h
    cases hs : m.decodeStep E cS noise temperature topk init x with
    | error e =>
      rw [hs] at h
      exact absurd h (by simp [Bind.bind, Except.bind])
    | ok mid =>
      rw [hs] at h
      simp only [Bind.bind, Except.bind] at h
      rw [ih mid fin h, decodeStep_trace m E cS noise temperature topk init x mid hs]
      simp [List.replicate_succ]

lemma generate_frame_trace (m : Model) (E : ℚ → ℚ) (cS : Nat → Nat → ℚ)
    (noise : Nat → List (List ℚ)) (st : GFState) (tokens : List (List (List Nat)))
    (tokens_mask : List (List (List Bool))) (input_pos : List (List Nat))
    (temperature : ℚ) (topk : Nat) (r : FrameResult)
    (hr : m.generate_frame E cS noise st tokens tokens_mask input_pos temperature topk = .ok r) :
    r.trace = DecEvent.reset :: List.replicate (m.args.audio_num_codebooks - 1) DecEvent.step := by
  unfold Model.generate_frame at hr
  cases hfc : m.forwardCore st (.r3 tokens) (.r3 tokens_mask) input_pos with
  | error e => rw [hfc] at hr; exact absurd hr (by simp)
  | ok p =>
    rw [hfc] at hr
    simp only at hr
    cases hs : sampleTopkBatch E cS noise 0 (p.1.map m.codebook0_head) topk temperature with
    | error e => rw [hs] at hr; exact absurd hr (by simp)
    | ok c0 =>
      rw [hs] at hr
      simp only at hr
      split at hr
      · exact absurd hr (by simp)
      · rename_i fin hfold
        cases hr
        have htr := foldlM_decodeSteps_trace m E cS noise temperature topk _ _ _ hfold
        simpa [List.length_range'] using htr

/-- C1: the decoder cache is reset before any decoder-stack step of a
frame's codebook-expansion loop: the entire result of `generate_frame` is
independent of whatever decoder cache was left behind by a previous frame
of the session, and (on success) the observed decoder-event trace is a
`reset` followed by exactly `audio_num_codebooks - 1` decoder steps, with
the reset preceding every step. -/
theorem claim_C1_decoder_cache_reset_before_steps (m : Model) (E : ℚ → ℚ)
    (cS : Nat → Nat → ℚ) (noise : Nat → List (List ℚ)) (st : GFState)
    (d1 d2 : List (List (List Vec))) (tokens : List (List (List Nat)))
    (tokens_mask : List (List (List Bool))) (input_pos : List (List Nat))
    (temperature : ℚ) (topk : Nat) :
    m.generate_frame E cS noise { st with decoderCache := d1 } tokens tokens_mask input_pos
        temperature topk =
      m.generate_frame E cS noise { st with decoderCache := d2 } tokens tokens_mask input_pos
        temperature topk ∧
    (m.generate_frame E cS noise { st with decoderCache := d1 } tokens tokens_mask input_pos
        temperature topk).map FrameResult.trace =
      (m.generate_frame E cS noise { st with decoderCache := d1 } tokens tokens_mask input_pos
        temperature topk).map
        (fun _ => DecEvent.reset :: List.replicate (m.args.audio_num_codebooks - 1) DecEvent.step) := by
  constructor
  · unfold Model.generate_frame
    rw [forwardCore_decoderCache_irrelevant m st d1, forwardCore_decoderCache_irrelevant m st d2]
    cases m.forwardCore st (.r3 tokens) (.r3 tokens_mask) input_pos with
    | error e => rfl
    | ok p => rfl
  · cases hgen : m.generate_frame E cS noise { st with decoderCache := d1 } tokens tokens_mask
        input_pos temperature topk with
    | error e => rfl
    | ok r =>
      simp only [Except.map]
      rw [generate_frame_trace m E cS noise _ tokens tokens_mask input_pos temperature topk r hgen]

/-- C5: with `audio_num_codebooks = 1` the codebook-expansion loop body
never runs: the frame returned by `generate_frame` is exactly the
codebook-0 sample drawn from the codebook-0 head (one token column per
batch row), and the decoder stack is never invoked (the trace contains
the cache reset and no decoder step). -/
theorem claim_C5_single_codebook_frame_is_c0 (m : Model) (E : ℚ → ℚ) (cS : Nat → Nat → ℚ)
    (noise : Nat → List (List ℚ)) (st : GFState) (tokens : List (List (List Nat)))
    (tokens_mask : List (List (List Bool))) (input_pos : List (List Nat))
    (temperature : ℚ) (topk : Nat) (hk : m.args.audio_num_codebooks = 1) (r : FrameResult)
    (hr : m.generate_frame E cS noise st tokens tokens_mask input_pos temperature topk = .ok r) :
    (∃ last_h st1,
      m.forwardCore st (.r3 tokens) (.r3 tokens_mask) input_pos = .ok (last_h, st1) ∧
      ∃ c0, sampleTopkBatch E cS noise 0 (last_h.map m.codebook0_head) topk temperature = .ok c0 ∧
        r.sample = c0.map (fun t => [t]) ∧ r.state = { st1 with decoderCache := [] }) ∧
    r.trace = [DecEvent.reset] := by
  unfold Model.generate_frame at hr
  cases hfc : m.forwardCore st (.r3 tokens) (.r3 tokens_mask) input_pos with
  | error e => rw [hfc] at hr; exact absurd hr (by simp)
  | ok p =>
    obtain ⟨lh, st1⟩ := p
    rw [hfc] at hr
    simp only at hr
    cases hs : sampleTopkBatch E cS noise 0 (lh.map m.codebook0_head) topk temperature with
    | error e => rw [hs] at hr; exact absurd hr (by simp)
    | ok c0 =>
      rw [hs] at hr
      simp only [hk] at hr
      rw [show (1 : Nat) - 1 = 0 from rfl] at hr
      rw [show List.range' 1 0 = [] from rfl, List.foldlM_nil] at hr
      simp only [pure, Except.pure] at hr
      cases hr
      exact ⟨⟨lh, st1, rfl, c0, hs, rfl, rfl⟩, rfl⟩

/-! ## Concrete instances used by witnesses -/

/-- A minimal concrete model with one codebook (identity transformer
stacks, one-dimensional embeddings, audio vocabulary 2). -/
def McM : Model :=
  { args := { text_vocab_size := 10, audio_vocab_size := 2, audio_num_codebooks := 1 }
    backbone_max_seq_len := 2
    backboneFwd := fun _ inp _ _ => inp
    decoderFwd := fun _ inp _ _ => inp
    text_embeddings := fun _ => [1]
    audio_embeddings := fun _ => [1]
    codebook0_head := fun _ => [0, 1]
    audio_head := fun _ _ => [0, 1]
    projection := fun v => v }

/-- The same concrete model with two codebooks. -/
def Mc2 : Model :=
  { args := { text_vocab_size := 10, audio_vocab_size := 2, audio_num_codebooks := 2 }
    backbone_max_seq_len := 2
    backboneFwd := fun _ inp _ _ => inp
    decoderFwd := fun _ inp _ _ => inp
    text_embeddings := fun _ => [1]
    audio_embeddings := fun _ => [1]
    codebook0_head := fun _ => [0, 1]
    audio_head := fun _ _ => [0, 1]
    projection := fun v => v }

/-- A model state whose caches were never set up. -/
def stOffc : GFState :=
  { backboneCachesEnabled := false
    backboneCache := []
    decoderCache := []
    backbone_causal_mask := []
    decoder_causal_mask := [] }

/-- A concrete heap holding one valid single-step token frame, its mask,
and its position tensor (references 0, 1, 2). -/
def σc : Heap := [.n3 [[[1, 0]]], .b3 [[[true, true]]], .n2 [[0]]]

/-- The concrete result of `McM.generate_frame` on the witness input. -/
def rC5 : FrameResult :=
  { sample := [[0]]
    state :=
      { backboneCachesEnabled := true
        backboneCache := [[[[2]]]]
        decoderCache := []
        backbone_causal_mask := [[true, false], [true, true]]
        decoder_causal_mask := [[true]] }
    trace := [DecEvent.reset] }

/-- C5 witness: the single-codebook property instantiated on the
concrete model `McM` and a concrete successful `generate_frame` call. -/
theorem claim_C5_witness :
    (∃ last_h st1,
      McM.forwardCore McM.setup_caches (.r3 [[[1, 0]]]) (.r3 [[[true, true]]]) [[0]] =
        .ok (last_h, st1) ∧
      ∃ c0, sampleTopkBatch (fun _ => 1) (fun _ _ => 0) (fun _ => [[1, 1]]) 0
          (last_h.map McM.codebook0_head) 2 (9 / 10) = .ok c0 ∧
        rC5.sample = c0.map (fun t => [t]) ∧ rC5.state = { st1 with decoderCache := [] }) ∧
    rC5.trace = [DecEvent.reset] :=
  claim_C5_single_codebook_frame_is_c0 McM (fun _ => 1) (fun _ _ => 0) (fun _ => [[1, 1]])
    McM.setup_caches [[[1, 0]]] [[[true, true]]] [[0]] (9 / 10) 2 rfl rC5 (by
    norm_num [Model.generate_frame, Model.forwardCore, Model.fuseTokens, Model.embed_tokens,
      Model.embedCell, mapE, broadcastAdd, regroupCell, catCell, bzipE, maskCellMul, maskSlotMul,
      sumVecs, _index_causal_mask, _create_causal_mask, Model.setup_caches, McM, sampleTopkBatch,
      sample_topk, kthLargest, listZ, argmaxIdx, argmaxAux, Model._embed_audio, rC5,
      List.insertionSort, List.orderedInsert, List.foldlM, List.range', List.enum, List.enumFrom,
      pure, Except.pure, List.range_succ, List.range_zero])

/-! ## Claim about the caches-are-enabled precondition -/

lemma notAssert_runtime (s : String) : (PyErr.runtimeError s).notAssert := by
  intro msg h
  cases h

lemma notAssert_index (s : String) : (PyErr.indexError s).notAssert := by
  intro msg h
  cases h

lemma mapE_error_notAssert {α β : Type} (f : α → Except PyErr β)
    (hf : ∀ x e', f x = .error e' → e'.notAssert) :
    ∀ (l : List α) (e : PyErr), mapE f l = .error e → e.notAssert := by
  intro l
  induction l with
  | nil => intro e h; exact absurd h (by simp [mapE])
  | cons x xs ih =>
    intro e h
    simp only [mapE] at h
    cases hx : f x with
    | error e' =>
      rw [hx] at h
      simp only at h
      injection h with h2
      subst h2
      exact hf x _ hx
    | ok y =>
      rw [hx] at h
      simp only at h
      cases hxs : mapE f xs with
      | error e' =>
        rw [hxs] at h
        simp only at h
        injection h with h2
        subst h2
        exact ih _ hxs
      | ok ys => rw [hxs] at h; exact absurd h (by simp)

lemma bzipE_error_notAssert {α β γ : Type} (f : α → β → Except PyErr γ)
    (hf : ∀ x y e', f x y = .error e' → e'.notAssert) (xs : List α) (ys : List β)
    (e : PyErr) (h : bzipE f xs ys = .error e) : e.notAssert := by
  unfold bzipE at h
  split at h
  · exact mapE_error_notAssert _ (fun p e' hp => hf p.1 p.2 e' hp) _ _ h
  · split at h
    · exact mapE_error_notAssert _ (fun y e' hy => hf _ y e' hy) _ _ h
    · exact mapE_error_notAssert _ (fun x e' hx => hf x _ e' hx) _ _ h
    · injection h with h2
      subst h2
      exact notAssert_runtime _

lemma broadcastAdd_error_notAssert (xs offs : List Nat) (e : PyErr)
    (h : broadcastAdd xs offs = .error e) : e.notAssert := by
  unfold broadcastAdd at h
  split at h
  · exact absurd h (by simp)
  · split at h
    · exact absurd h (by simp)
    · exact absurd h (by simp)
    · injection h with h2
      subst h2
      exact notAssert_runtime _

lemma regroupCell_error_notAssert (k : Nat) (vecs : List Vec) (e : PyErr)
    (h : regroupCell k vecs = .error e) : e.notAssert := by
  unfold regroupCell at h
  split at h
  · exact absurd h (by simp)
  · split at h
    · exact absurd h (by simp)
    · injection h with h2
      subst h2
      exact notAssert_runtime _

lemma catCell_error_notAssert (audioSlots : List Vec) (textVec : Vec) (e : PyErr)
    (h : catCell audioSlots textVec = .error e) : e.notAssert := by
  unfold catCell at h
  split at h
  · exact absurd h (by simp)
  · injection h with h2
    subst h2
    exact notAssert_runtime _

lemma embedCell_error_notAssert (m : Model) (slots : List Nat) (e : PyErr)
    (h : m.embedCell slots = .error e) : e.notAssert := by
  unfold Model.embedCell at h
  split at h
  · injection h with h2
    subst h2
    exact notAssert_index _
  · split at h
    · injection h with h2
      subst h2
      rename_i hba
      exact broadcastAdd_error_notAssert _ _ _ hba
    · split at h
      · injection h with h2
        subst h2
        rename_i hrg
        exact regroupCell_error_notAssert _ _ _ hrg
      · exact catCell_error_notAssert _ _ _ h

lemma embed_tokens_error_notAssert (m : Model) (tokens : TTensor) (e : PyErr)
    (h : m.embed_tokens tokens = .error e) : e.notAssert := by
  cases tokens with
  | r2 x =>
    simp only [Model.embed_tokens] at h
    injection h with h2
    subst h2
    exact notAssert_index _
  | r3 t =>
    simp only [Model.embed_tokens] at h
    exact mapE_error_notAssert _
      (fun row e' hrow => mapE_error_notAssert _ (fun c e'' hc => embedCell_error_notAssert m c e'' hc) _ _ hrow)
      _ _ h

lemma fuseTokens_error_notAssert (m : Model) (tokens : TTensor) (mask : MTensor) (e : PyErr)
    (h : m.fuseTokens tokens mask = .error e) : e.notAssert := by
  unfold Model.fuseTokens at h
  cases het : m.embed_tokens tokens with
  | error e' =>
    rw [het] at h
    simp only at h
    injection h with h2
    subst h2
    exact embed_tokens_error_notAssert m tokens _ het
  | ok embeds =>
    rw [het] at h
    simp only at h
    cases mask with
    | r3 mrows =>
      simp only at h
      split at h
      · injection h with h2
        subst h2
        rename_i hbz
        exact bzipE_error_notAssert _
          (fun erow mrow e' hrow =>
            bzipE_error_notAssert _
              (fun ec mc e'' hc =>
                bzipE_error_notAssert _ (fun v bb e''' hvb => by cases hvb) _ _ e'' hc)
              _ _ e' hrow)
          _ _ _ hbz
      · exact absurd h (by simp)
    | r2 mrows =>
      simp only at h
      split at h
      · injection h with h2
        subst h2
        rename_i hbz
        refine mapE_error_notAssert _ (fun arow e' hrow => ?_) _ _ hbz
        refine bzipE_error_notAssert _ (fun acell burow e'' hc => ?_) _ _ _ hrow
        refine bzipE_error_notAssert _ (fun avec bucell e''' hvb => ?_) _ _ _ hc
        revert hvb
        match bucell with
        | [bb] => intro hvb; cases hvb
        | [] => intro hvb; injection hvb with h2; subst h2; exact notAssert_runtime _
        | _ :: _ :: _ => intro hvb; injection hvb with h2; subst h2; exact notAssert_runtime _
      · exact absurd h (by simp)

lemma sample_topk_error_notAssert (E : ℚ → ℚ) (c : ℚ) (noise logits : List ℚ) (topk : Nat)
    (temperature : ℚ) (e : PyErr)
    (h : sample_topk E c noise logits topk temperature = .error e) : e.notAssert := by
  unfold sample_topk at h
  split at h
  · injection h with h2
    subst h2
    exact notAssert_runtime _
  · split at h
    · injection h with h2
      subst h2
      exact notAssert_index _
    · exact absurd h (by simp)

lemma sampleTopkBatch_error_notAssert (E : ℚ → ℚ) (cS : Nat → Nat → ℚ)
    (noise : Nat → List (List ℚ)) (callIdx : Nat) (logitsRows : List (List ℚ)) (topk : Nat)
    (temperature : ℚ) (e : PyErr)
    (h : sampleTopkBatch E cS noise callIdx logitsRows topk temperature = .error e) :
    e.notAssert := by
  unfold sampleTopkBatch at h
  exact mapE_error_notAssert _
    (fun p e' hp => sample_topk_error_notAssert _ _ _ _ _ _ _ hp) _ _ h

lemma decodeStep_error_notAssert (m : Model) (E : ℚ → ℚ) (cS : Nat → Nat → ℚ)
    (noise : Nat → List (List ℚ)) (temperature : ℚ) (topk : Nat) (ls : LoopSt) (i : Nat)
    (e : PyErr) (h : m.decodeStep E cS noise temperature topk ls i = .error e) :
    e.notAssert := by
  simp only [Model.decodeStep] at h
  split at h
  · injection h with h2
    subst h2
    rename_i hs
    exact sampleTopkBatch_error_notAssert _ _ _ _ _ _ _ _ hs
  · exact absurd h (by simp)

lemma foldlM_decodeSteps_error_notAssert (m : Model) (E : ℚ → ℚ) (cS : Nat → Nat → ℚ)
    (noise : Nat → List (List ℚ)) (temperature : ℚ) (topk : Nat) :
    ∀ (l : List Nat) (init : LoopSt) (e : PyErr),
      List.foldlM (m.decodeStep E cS noise temperature topk) init l = .error e →
      e.notAssert := by
  intro l
  induction l with
  | nil =>
    intro init e h
    rw [List.foldlM_nil] at h
    exact absurd h (by simp [pure, Except.pure])
  | cons x xs ih =>
    intro init e h
    rw [List.foldlM_cons] at h
    cases hs : m.decodeStep E cS noise temperature topk init x with
    | error e' =>
      rw [hs] at h
      simp only [Bind.bind, Except.bind] at h
      injection h with h2
      subst h2
      exact decodeStep_error_notAssert _ _ _ _ _ _ _ _ _ hs
    | ok mid =>
      rw [hs] at h
      simp only [Bind.bind, Except.bind] at h
      exact ih mid e h

/-- C4: calling `generate_frame` (or the single-step `forward` path) when
the backbone caches have not been set up fails immediately with the
"caches are not enabled" assertion and produces no sampled frame; when
the caches were set up beforehand, that precondition check passes — no
assertion error can be produced by either entry point. -/
theorem claim_C4_requires_cache_setup (m : Model) (E : ℚ → ℚ) (cS : Nat → Nat → ℚ)
    (noise : Nat → List (List ℚ)) (st : GFState) (tokens : List (List (List Nat)))
    (tokens_mask : List (List (List Bool))) (btokens : TTensor) (bmask : MTensor)
    (input_pos : List (List Nat)) (temperature : ℚ) (topk : Nat) :
    (st.backboneCachesEnabled = false →
      m.generate_frame E cS noise st tokens tokens_mask input_pos temperature topk =
        .error (.assertionError "backbone caches are not enabled") ∧
      m.forward st btokens bmask input_pos =
        .error (.assertionError "backbone caches are not enabled")) ∧
    (st.backboneCachesEnabled = true →
      (∀ msg, m.generate_frame E cS noise st tokens tokens_mask input_pos temperature topk ≠
        .error (.assertionError msg)) ∧
      (∀ msg, m.forward st btokens bmask input_pos ≠ .error (.assertionError msg))) := by
  constructor
  · intro hoff
    constructor
    · unfold Model.generate_frame Model.forwardCore
      rw [hoff]
      rfl
    · unfold Model.forward Model.forwardCore
      rw [hoff]
      rfl
  · intro hon
    have hcore : ∀ tk mk e, m.forwardCore st tk mk input_pos = .error e → e.notAssert := by
      intro tk mk e h
      unfold Model.forwardCore at h
      rw [hon] at h
      simp only [if_true] at h
      cases hf : m.fuseTokens tk mk with
      | error e' =>
        rw [hf] at h
        simp only at h
        cases h
        exact fuseTokens_error_notAssert m tk mk _ hf
      | ok fused => rw [hf] at h; exact absurd h (by simp)
    constructor
    · intro msg hcon
      unfold Model.generate_frame at hcon
      cases hfc : m.forwardCore st (.r3 tokens) (.r3 tokens_mask) input_pos with
      | error e =>
        rw [hfc] at hcon
        simp only at hcon
        injection hcon with h2
        exact hcore _ _ _ hfc msg h2
      | ok p =>
        rw [hfc] at hcon
        simp only at hcon
        cases hs : sampleTopkBatch E cS noise 0 (p.1.map m.codebook0_head) topk temperature with
        | error e =>
          rw [hs] at hcon
          simp only at hcon
          injection hcon with h2
          exact sampleTopkBatch_error_notAssert _ _ _ _ _ _ _ _ hs msg h2
        | ok c0 =>
          rw [hs] at hcon
          simp only at hcon
          split at hcon
          · injection hcon with h2
            rename_i hfold
            exact foldlM_decodeSteps_error_notAssert _ _ _ _ _ _ _ _ _ hfold msg h2
          · exact absurd hcon (by simp)
    · intro msg hcon
      unfold Model.forward at hcon
      cases hfc : m.forwardCore st btokens bmask input_pos with
      | error e =>
        rw [hfc] at hcon
        simp only at hcon
        injection hcon with h2
        exact hcore _ _ _ hfc msg h2
      | ok p =>
        rw [hfc] at hcon
        exact absurd hcon (by simp)

/-- C4 witness: on a concrete model, a state without cache setup fails
with the assertion error, and the set-up state never produces it. -/
theorem claim_C4_witness :
    (McM.generate_frame (fun _ => 1) (fun _ _ => 0) (fun _ => [[1, 1]]) stOffc
        [[[1, 0]]] [[[true, true]]] [[0]] (9 / 10) 2 =
      .error (.assertionError "backbone caches are not enabled") ∧
      McM.forward stOffc (.r3 [[[1, 0]]]) (.r3 [[[true, true]]]) [[0]] =
        .error (.assertionError "backbone caches are not enabled")) ∧
    (∀ msg, McM.generate_frame (fun _ => 1) (fun _ _ => 0) (fun _ => [[1, 1]])
        McM.setup_caches [[[1, 0]]] [[[true, true]]] [[0]] (9 / 10) 2 ≠
      .error (.assertionError msg)) :=
  ⟨(claim_C4_requires_cache_setup McM (fun _ => 1) (fun _ _ => 0) (fun _ => [[1, 1]]) stOffc
      [[[1, 0]]] [[[true, true]]] (.r3 [[[1, 0]]]) (.r3 [[[true, true]]]) [[0]] (9 / 10) 2).1 rfl,
    ((claim_C4_requires_cache_setup McM (fun _ => 1) (fun _ _ => 0) (fun _ => [[1, 1]])
      McM.setup_caches [[[1, 0]]] [[[true, true]]] (.r3 [[[1, 0]]]) (.r3 [[[true, true]]]) [[0]]
      (9 / 10) 2).2 rfl).1⟩

/-! ## Claims about the batch driver -/

/-- C2: the two generation entry points have asymmetric error contracts.
Whenever the underlying computation of `generate_frames_batch` (its
`try` block) raises, the caught exception is converted to a `None`
result; whereas `generate_frame` propagates every error of its
underlying computation unchanged to the caller, from whichever of its
three stages raised it: the shared backbone step (`forwardCore`: the
caches assert, embedding and mask fusion), the codebook-0 sampling
(`sample_topk` on the codebook-0 head, e.g. `topk = 0`), or the
codebook-expansion decoder loop (these stages are exhaustive: the
definition of `generate_frame` has no other failure point and no
handler). -/
theorem claim_C2_error_contract_asymmetry :
    (∀ (m : Model) (E : ℚ → ℚ) (u : Nat → Nat → ℚ) (σ : Heap) (st : GFState)
        (tR mR pR : Nat) (temperature : ℚ) (topk num_frames : Nat) (e : PyErr),
      (m.generate_frames_batch_try E u σ st tR mR pR temperature topk num_frames).2.2 =
        .error e →
      (m.generate_frames_batch E u σ st tR mR pR temperature topk num_frames).2.2 = none) ∧
    (∀ (m : Model) (E : ℚ → ℚ) (cS : Nat → Nat → ℚ) (noise : Nat → List (List ℚ))
        (st : GFState) (tokens : List (List (List Nat))) (tokens_mask : List (List (List Bool)))
        (input_pos : List (List Nat)) (temperature : ℚ) (topk : Nat) (e : PyErr),
      m.forwardCore st (.r3 tokens) (.r3 tokens_mask) input_pos = .error e →
      m.generate_frame E cS noise st tokens tokens_mask input_pos temperature topk =
        .error e) ∧
    (∀ (m : Model) (E : ℚ → ℚ) (cS : Nat → Nat → ℚ) (noise : Nat → List (List ℚ))
        (st : GFState) (tokens : List (List (List Nat))) (tokens_mask : List (List (List Bool)))
        (input_pos : List (List Nat)) (temperature : ℚ) (topk : Nat)
        (last_h : List Vec) (st1 : GFState) (e : PyErr),
      m.forwardCore st (.r3 tokens) (.r3 tokens_mask) input_pos = .ok (last_h, st1) →
      sampleTopkBatch E cS noise 0 (last_h.map m.codebook0_head) topk temperature = .error e →
      m.generate_frame E cS noise st tokens tokens_mask input_pos temperature topk =
        .error e) ∧
    (∀ (m : Model) (E : ℚ → ℚ) (cS : Nat → Nat → ℚ) (noise : Nat → List (List ℚ))
        (st : GFState) (tokens : List (List (List Nat))) (tokens_mask : List (List (List Bool)))
        (input_pos : List (List Nat)) (temperature : ℚ) (topk : Nat)
        (last_h : List Vec) (st1 : GFState) (c0_sample : List Nat) (e : PyErr),
      m.forwardCore st (.r3 tokens) (.r3 tokens_mask) input_pos = .ok (last_h, st1) →
      sampleTopkBatch E cS noise 0 (last_h.map m.codebook0_head) topk temperature =
        .ok c0_sample →
      (List.range' 1 (m.args.audio_num_codebooks - 1)).foldlM
          (m.decodeStep E cS noise temperature topk)
          { h := List.zipWith (fun lh ce => [lh, ce]) last_h (c0_sample.map (m._embed_audio 0))
            sample := c0_sample.map fun t => [t]
            pos := (List.zipWith (fun lh ce => [lh, ce]) last_h
              (c0_sample.map (m._embed_audio 0))).map fun _ => [0, 1]
            state := { st1 with decoderCache := [] }
            trace := [DecEvent.reset] } = .error e →
      m.generate_frame E cS noise st tokens tokens_mask input_pos temperature topk =
        .error e) := by
  refine ⟨?_, ?_, ?_, ?_⟩
  · intro m E u σ st tR mR pR temperature topk n e h
    unfold Model.generate_frames_batch
    rcases htry : m.generate_frames_batch_try E u σ st tR mR pR temperature topk n with
      ⟨σ', st', res⟩
    rw [htry] at h
    simp only at h
    rw [h]
  · intro m E cS noise st tokens tokens_mask input_pos temperature topk e h
    unfold Model.generate_frame
    rw [h]
  · intro m E cS noise st tokens tokens_mask input_pos temperature topk last_h st1 e hfc hs
    unfold Model.generate_frame
    rw [hfc]
    dsimp only
    rw [hs]
  · intro m E cS noise st tokens tokens_mask input_pos temperature topk last_h st1 c0_sample e
      hfc hs hfold
    unfold Model.generate_frame
    rw [hfc]
    dsimp only
    rw [hs]
    dsimp only
    rw [hfold]

/-- The post-backbone state of the C2 witness run: the fused input frame
appended to the (previously empty) backbone cache. -/
def stC2 : GFState :=
  { backboneCachesEnabled := true
    backboneCache := [[[[2]]]]
    decoderCache := []
    backbone_causal_mask := [[true, false], [true, true]]
    decoder_causal_mask := [[true]] }

/-- C2 witness: on a concrete input whose computation fails before any
sampling (caches never set up), the batch driver returns `None` while
the strict path surfaces the assertion error; and on a concrete input
that fails only at the sampling stage (caches set up, `topk = 0`), the
strict path surfaces that later error too. -/
theorem claim_C2_witness :
    (McM.generate_frames_batch (fun _ => 1) (fun _ _ => 3 / 5) σc stOffc 0 1 2 (9 / 10) 2
      5).2.2 = none ∧
    McM.generate_frame (fun _ => 1) (fun _ _ => 0) (fun _ => [[1, 1]]) stOffc
        [[[1, 0]]] [[[true, true]]] [[0]] (9 / 10) 2 =
      .error (.assertionError "backbone caches are not enabled") ∧
    McM.generate_frame (fun _ => 1) (fun _ _ => 0) (fun _ => [[1, 1]]) McM.setup_caches
        [[[1, 0]]] [[[true, true]]] [[0]] (9 / 10) 0 =
      .error (.indexError "index -1 is out of bounds for dimension 1 with size 0") :=
  ⟨claim_C2_error_contract_asymmetry.1 McM (fun _ => 1) (fun _ _ => 3 / 5) σc stOffc 0 1 2
      (9 / 10) 2 5 (.assertionError "backbone caches are not enabled") (by decide),
    claim_C2_error_contract_asymmetry.2.1 McM (fun _ => 1) (fun _ _ => 0) (fun _ => [[1, 1]])
      stOffc [[[1, 0]]] [[[true, true]]] [[0]] (9 / 10) 2
      (.assertionError "backbone caches are not enabled") (by decide),
    claim_C2_error_contract_asymmetry.2.2.1 McM (fun _ => 1) (fun _ _ => 0) (fun _ => [[1, 1]])
      McM.setup_caches [[[1, 0]]] [[[true, true]]] [[0]] (9 / 10) 0 [[2]] stC2
      (.indexError "index -1 is out of bounds for dimension 1 with size 0")
      (by
        norm_num [Model.forwardCore, Model.fuseTokens, Model.embed_tokens, Model.embedCell,
          mapE, broadcastAdd, regroupCell, catCell, bzipE, maskCellMul, maskSlotMul, sumVecs,
          _index_causal_mask, _create_causal_mask, Model.setup_caches, McM, stC2,
          List.range_succ, List.range_zero, pure, Except.pure])
      (by decide)⟩

set_option maxHeartbeats 2000000 in
/-- C3 (code bug): a `generate_frames_batch` run with `num_frames = 5` on
a valid single-step token frame whose first sample is nonzero never
reaches a third iteration, let alone the all-zero sentinel: the update
step rebuilds `curr_tokens` as a rank-2 tensor
(`cat([sample, zeros(1, 1)], dim=1)`), so the second iteration's
`forward` raises an IndexError inside `_embed_tokens`, the `except`
converts it to `None`, and the accumulated first frame is discarded —
instead of the claimed behavior of stopping at the sentinel and
returning the accumulated frames. -/
theorem claim_C3_batch_crashes_before_any_third_iteration :
    (McM.generate_frames_batch (fun _ => 1) (fun _ _ => 3 / 5) σc McM.setup_caches 0 1 2
      (9 / 10) 2 5).2.2 = none := by
  norm_num [Model.generate_frames_batch, Model.generate_frames_batch_try, Model.batchLoop,
    Model.batchIter, stageLogits, stageTopk,
    heapAlloc, heapRead, heapWrite, asTokens, asMask, asPos, Model.forward, Model.forwardCore,
    Model.fuseTokens, Model.embed_tokens, Model.embedCell, mapE, broadcastAdd, regroupCell,
    catCell, bzipE, maskCellMul, maskSlotMul, sumVecs, _index_causal_mask, _create_causal_mask,
    Model.setup_caches, McM, σc, softmaxRow, multinomialRow, multinomialPick, kthLargest, listZ,
    List.insertionSort, List.orderedInsert, List.enum, List.enumFrom, List.range_succ,
    List.range_zero, List.filterMap_cons, List.filterMap_nil]

/-- Heap extension: `σ'` has at least the objects of `σ`, and every
pre-existing object is unchanged. -/
def HeapExt (σ σ' : Heap) : Prop :=
  σ.length ≤ σ'.length ∧ ∀ r, r < σ.length → σ'[r]? = σ[r]?

lemma HeapExt.refl (σ : Heap) : HeapExt σ σ := ⟨le_refl _, fun _ _ => rfl⟩

lemma HeapExt.trans {a b c : Heap} (h1 : HeapExt a b) (h2 : HeapExt b c) : HeapExt a c :=
  ⟨le_trans h1.1 h2.1, fun r hr => by rw [h2.2 r (lt_of_lt_of_le hr h1.1), h1.2 r hr]⟩

lemma HeapExt.alloc {a b : Heap} (h : HeapExt a b) (v : TVal) : HeapExt a (heapAlloc b v).1 := by
  have hb := h.1
  refine ⟨?_, fun r hr => ?_⟩
  · simp only [heapAlloc, List.length_append, List.length_cons, List.length_nil]
    omega
  · rw [show (heapAlloc b v).1 = b ++ [v] from rfl,
      List.getElem?_append_left (lt_of_lt_of_le hr h.1)]
    exact h.2 r hr

lemma HeapExt.write {a b : Heap} (h : HeapExt a b) (j : Nat) (v : TVal) (hj : a.length ≤ j) :
    HeapExt a (heapWrite b j v) := by
  refine ⟨?_, fun r hr => ?_⟩
  · rw [show heapWrite b j v = b.set j v from rfl, List.length_set]
    exact h.1
  · rw [show heapWrite b j v = b.set j v from rfl,
      List.getElem?_set_ne (by omega)]
    exact h.2 r hr

lemma stageLogits_ext (σ : Heap) (temperature : ℚ) (logits0 : List (List ℚ)) :
    HeapExt σ (stageLogits σ temperature logits0).1 ∧
    σ.length ≤ (stageLogits σ temperature logits0).2.1 := by
  unfold stageLogits
  by_cases ht : 0 < temperature
  · simp only [if_pos ht]
    exact ⟨((HeapExt.refl σ).alloc _).alloc _, by simp [heapAlloc]⟩
  · simp only [if_neg ht]
    exact ⟨(HeapExt.refl σ).alloc _, by simp [heapAlloc]⟩

lemma stageTopk_ext (σ0 σ : Heap) (lRef topk : Nat) (divided : List (List ℚ))
    (hσ : HeapExt σ0 σ) (hl : σ0.length ≤ lRef) (σ2 : Heap) (masked : List (List (Option ℚ)))
    (h : stageTopk σ lRef topk divided = .ok (σ2, masked)) : HeapExt σ0 σ2 := by
  unfold stageTopk at h
  split at h
  · split at h
    · exact absurd h (by simp)
    · injection h with h2
      rw [show σ2 = (heapWrite σ lRef (.oq2 (divided.map fun row =>
          row.map fun x => if x < kthLargest row topk then none else some x))) from
        congrArg Prod.fst h2.symm]
      exact hσ.write _ _ hl
  · injection h with h2
    rw [show σ2 = σ from congrArg Prod.fst h2.symm]
    exact hσ

lemma batchIter_heapExt (m : Model) (E : ℚ → ℚ) (u : Nat → Nat → ℚ) (temperature : ℚ)
    (topk : Nat) (σ : Heap) (st : GFState) (tR mR pR : Nat) (ci : Nat) :
    HeapExt σ (m.batchIter E u temperature topk σ st tR mR pR ci).heap := by
  unfold Model.batchIter
  cases asTokens (heapRead σ tR) with
  | error e => exact HeapExt.refl σ
  | ok tok =>
  dsimp only
  cases asMask (heapRead σ mR) with
  | error e => exact HeapExt.refl σ
  | ok mask =>
  dsimp only
  cases asPos (heapRead σ pR) with
  | error e => exact HeapExt.refl σ
  | ok pos =>
  dsimp only
  cases m.forward st tok mask pos with
  | error e => exact HeapExt.refl σ
  | ok p =>
  obtain ⟨logits0, st'⟩ := p
  dsimp only
  cases hstk : stageTopk (stageLogits σ temperature logits0).1
      (stageLogits σ temperature logits0).2.1 topk (stageLogits σ temperature logits0).2.2 with
  | error e => exact (stageLogits_ext σ temperature logits0).1
  | ok q =>
  obtain ⟨σ2, masked⟩ := q
  have hσ2 : HeapExt σ σ2 := stageTopk_ext σ _ _ _ _ (stageLogits_ext σ temperature logits0).1
    (stageLogits_ext σ temperature logits0).2 _ _ hstk
  dsimp only
  cases mapE (fun p => multinomialRow p.2 (u ci p.1)) ((masked.map (softmaxRow E)).enum) with
  | error e => exact hσ2
  | ok draws =>
  dsimp only
  split
  · exact hσ2.alloc _
  · split
    · exact (((hσ2.alloc _).alloc _).alloc _).alloc _
    · exact hσ2.alloc _

lemma batchLoop_heapExt (m : Model) (E : ℚ → ℚ) (u : Nat → Nat → ℚ) (temperature : ℚ)
    (topk : Nat) :
    ∀ (fuel : Nat) (σ : Heap) (st : GFState) (tR mR pR : Nat)
      (acc : List (List (List Nat))) (ci : Nat),
      HeapExt σ (m.batchLoop E u temperature topk fuel σ st tR mR pR acc ci).heap := by
  intro fuel
  induction fuel with
  | zero => intro σ st tR mR pR acc ci; exact HeapExt.refl σ
  | succ fuel ih =>
    intro σ st tR mR pR acc ci
    simp only [Model.batchLoop]
    have hiter := batchIter_heapExt m E u temperature topk σ st tR mR pR ci
    cases hit : m.batchIter E u temperature topk σ st tR mR pR ci with
    | fail σ' st' e => rw [hit] at hiter; exact hiter
    | stop σ' st' => rw [hit] at hiter; exact hiter
    | next σ' st' tR' mR' pR' sample =>
      rw [hit] at hiter
      exact hiter.trans (ih _ _ _ _ _ _ _)

/-- C10: `generate_frames_batch` leaves every pre-existing heap object —
in particular the caller's `tokens`, `tokens_mask` and `pos` tensors —
unchanged: it clones the three inputs on entry, thereafter only rebinds
its local references to freshly allocated objects, and its only in-place
write (the top-k `masked_fill`) targets a logits object it allocated
itself. -/
theorem claim_C10_batch_driver_preserves_caller_tensors (m : Model) (E : ℚ → ℚ)
    (u : Nat → Nat → ℚ) (σ : Heap) (st : GFState) (tokensRef maskRef posRef : Nat)
    (temperature : ℚ) (topk num_frames : Nat) (r : Nat) (hr : r < σ.length) :
    ((m.generate_frames_batch E u σ st tokensRef maskRef posRef temperature topk
      num_frames).1)[r]? = σ[r]? := by
  simp only [Model.generate_frames_batch, Model.generate_frames_batch_try]
  set c1 := heapAlloc σ (heapRead σ tokensRef) with hc1
  set c2 := heapAlloc c1.1 (heapRead c1.1 maskRef) with hc2
  set c3 := heapAlloc c2.1 (heapRead c2.1 posRef) with hc3
  have hσ3 : HeapExt σ c3.1 := (((HeapExt.refl σ).alloc _).alloc _).alloc _
  have hloop := batchLoop_heapExt m E u temperature topk num_frames c3.1 st c1.2 c2.2 c3.2 [] 0
  rcases hl : m.batchLoop E u temperature topk num_frames c3.1 st c1.2 c2.2 c3.2 [] 0 with
    ⟨σ', st', res⟩
  rw [hl] at hloop
  cases res with
  | error e => exact (hσ3.trans hloop).2 r hr
  | ok acc => exact (hσ3.trans hloop).2 r hr

/-- C10 witness: on a concrete heap and run, object 0 (the caller's
token tensor) is unchanged by the call. -/
theorem claim_C10_witness :
    ((McM.generate_frames_batch (fun _ => 1) (fun _ _ => 3 / 5) σc stOffc 0 1 2 (9 / 10) 2
      5).1)[0]? = σc[0]? :=
  claim_C10_batch_driver_preserves_caller_tensors McM (fun _ => 1) (fun _ _ => 3 / 5) σc stOffc
    0 1 2 (9 / 10) 2 5 0 (by norm_num [σc])

/-! ## Claim about mismatched token-frame widths -/

lemma mapE_cons_error {α β : Type} (f : α → Except PyErr β) (x : α) (xs : List α) (e : PyErr)
    (h : f x = .error e) : mapE f (x :: xs) = .error e := by
  simp [mapE, h]

lemma mapE_ok_exists {α β : Type} (f : α → Except PyErr β) (P : β → Prop) :
    ∀ (l : List α), (∀ x ∈ l, ∃ y, f x = .ok y ∧ P y) →
      ∃ l', mapE f l = .ok l' ∧ l'.length = l.length ∧ ∀ y ∈ l', P y := by
  intro l
  induction l with
  | nil => intro _; exact ⟨[], rfl, rfl, by simp⟩
  | cons x xs ih =>
    intro h
    obtain ⟨y, hy, hP⟩ := h x (by simp)
    obtain ⟨ys, hys, hlen, hPs⟩ := ih fun z hz => h z (by simp [hz])
    refine ⟨y :: ys, ?_, by simp [hlen], ?_⟩
    · simp [mapE, hy, hys]
    · intro z hz
      rcases List.mem_cons.mp hz with h1 | h1
      · rw [h1]; exact hP
      · exact hPs z h1

lemma bzipE_cons_error {α β γ : Type} (f : α → β → Except PyErr γ) (x0 : α) (y0 : β)
    (xs : List α) (ys : List β) (e : PyErr) (hlen : xs.length = ys.length)
    (hf : f x0 y0 = .error e) : bzipE f (x0 :: xs) (y0 :: ys) = .error e := by
  unfold bzipE
  rw [if_pos (by simp [hlen])]
  simp [List.zip_cons_cons, mapE, hf]

lemma bzipE_len_error {α β γ : Type} (f : α → β → Except PyErr γ) (xs : List α) (ys : List β)
    (hx : 2 ≤ xs.length) (hy : 2 ≤ ys.length) (hne : xs.length ≠ ys.length) :
    ∃ e, bzipE f xs ys = .error e := by
  refine ⟨.runtimeError "The size of tensor a must match the size of tensor b at non-singleton dimension", ?_⟩
  unfold bzipE
  rw [if_neg hne]
  match xs, ys, hx, hy with
  | a :: b :: xs', c :: d :: ys', _, _ => rfl

lemma flatten_map_len {α : Type} (f : α → Vec) (D : Nat) (hf : ∀ x, (f x).length = D) :
    ∀ (l : List α), ((l.map f).flatten).length = l.length * D := by
  intro l
  induction l with
  | nil => simp
  | cons x xs ih => simp [ih, hf, Nat.succ_mul, Nat.add_comm]

/-- `embedCell` on a two-slot cell with `audio_num_codebooks ≥ 2`
silently broadcasts the single audio token across all codebooks and
succeeds with `audio_num_codebooks + 1` slots. -/
lemma embedCell_two_slots_ok (m : Model) (cell : List Nat) (D : Nat)
    (hc : cell.length = 2) (hk : 2 ≤ m.args.audio_num_codebooks)
    (hDa : ∀ n, (m.audio_embeddings n).length = D)
    (hDt : ∀ n, (m.text_embeddings n).length = D) :
    ∃ out, m.embedCell cell = .ok out ∧ out.length = m.args.audio_num_codebooks + 1 := by
  obtain ⟨a, rest, rfl⟩ : ∃ a rest, cell = a :: rest := by
    cases cell with
    | nil => simp at hc
    | cons a rest => exact ⟨a, rest, rfl⟩
  obtain ⟨txt, rfl⟩ : ∃ txt, rest = [txt] := by
    cases rest with
    | nil => simp at hc
    | cons txt rest2 =>
      cases rest2 with
      | nil => exact ⟨txt, rfl⟩
      | cons _ _ => simp at hc
  have hba : broadcastAdd [a] ((List.range m.args.audio_num_codebooks).map
      (· * m.args.audio_vocab_size)) = .ok (((List.range m.args.audio_num_codebooks).map
      (· * m.args.audio_vocab_size)).map (a + ·)) := by
    unfold broadcastAdd
    rw [if_neg (by simp; omega)]
    cases (List.range m.args.audio_num_codebooks).map (· * m.args.audio_vocab_size) with
    | nil => rfl
    | cons o offs2 =>
      cases offs2 with
      | nil => rfl
      | cons o2 offs3 => rfl
  have hrg : regroupCell m.args.audio_num_codebooks
      ((((List.range m.args.audio_num_codebooks).map (· * m.args.audio_vocab_size)).map
        (a + ·)).map m.audio_embeddings) = .ok
      ((((List.range m.args.audio_num_codebooks).map (· * m.args.audio_vocab_size)).map
        (a + ·)).map m.audio_embeddings) := by
    unfold regroupCell
    rw [if_pos (by simp)]
  have hall : (((((List.range m.args.audio_num_codebooks).map
      (· * m.args.audio_vocab_size)).map (a + ·)).map m.audio_embeddings).all
        fun v => v.length = (m.text_embeddings txt).length) = true := by
    refine List.all_eq_true.mpr ?_
    intro v hv
    obtain ⟨w, _, rfl⟩ := List.mem_map.mp hv
    simp [hDa, hDt]
  unfold Model.embedCell
  rw [show ([a, txt] : List Nat).getLast? = some txt from rfl,
    show ([a, txt] : List Nat).dropLast = [a] from rfl]
  dsimp only
  rw [hba]
  dsimp only
  rw [hrg]
  dsimp only
  unfold catCell
  rw [if_pos hall]
  exact ⟨_, rfl, by simp⟩

lemma exists_cons_cons_of_two_le {α : Type} (l : List α) (h : 2 ≤ l.length) :
    ∃ a b t, l = a :: b :: t := by
  cases l with
  | nil => simp at h
  | cons a l1 =>
    cases l1 with
    | nil => simp at h
    | cons b t => exact ⟨a, b, t, rfl⟩

lemma broadcastAdd_len_error (xs offs : List Nat) (hx : 2 ≤ xs.length) (ho : 2 ≤ offs.length)
    (hne : xs.length ≠ offs.length) : ∃ e, broadcastAdd xs offs = .error e := by
  obtain ⟨a, b, t, rfl⟩ := exists_cons_cons_of_two_le xs hx
  obtain ⟨c, d, r, rfl⟩ := exists_cons_cons_of_two_le offs ho
  unfold broadcastAdd
  rw [if_neg hne]
  exact ⟨_, rfl⟩

lemma broadcastAdd_single_off (xs : List Nat) (o : Nat) (hx : 2 ≤ xs.length) :
    broadcastAdd xs [o] = .ok (xs.map (· + o)) := by
  obtain ⟨a, b, t, rfl⟩ := exists_cons_cons_of_two_le xs hx
  unfold broadcastAdd
  rw [if_neg (by simp)]

lemma regroupCell_one (vecs : List Vec) (h : vecs.length ≠ 1) :
    regroupCell 1 vecs = .ok [vecs.flatten] := by
  unfold regroupCell
  rw [if_neg h, if_pos rfl]

lemma catCell_single_error (v textVec : Vec) (hne : v.length ≠ textVec.length) :
    ∃ e, catCell [v] textVec = .error e := by
  unfold catCell
  rw [if_neg (by simp [hne])]
  exact ⟨_, rfl⟩

lemma embedCell_zero_slots_error (m : Model) (cell : List Nat) (hc : cell.length = 0) :
    ∃ e, m.embedCell cell = .error e := by
  rw [List.length_eq_zero.mp hc]
  exact ⟨_, rfl⟩

lemma embedCell_one_slot_error (m : Model) (cell : List Nat) (D : Nat) (hc : cell.length = 1)
    (hDt : ∀ n, (m.text_embeddings n).length = D) (hD1 : 1 ≤ D)
    (hk : 1 ≤ m.args.audio_num_codebooks) : ∃ e, m.embedCell cell = .error e := by
  obtain ⟨x, rfl⟩ := List.length_eq_one.mp hc
  unfold Model.embedCell
  rw [show ([x] : List Nat).getLast? = some x from rfl,
    show ([x] : List Nat).dropLast = ([] : List Nat) from rfl]
  dsimp only
  by_cases hk2 : 2 ≤ m.args.audio_num_codebooks
  · obtain ⟨o1, o2, rest, hoffs⟩ := exists_cons_cons_of_two_le
      ((List.range m.args.audio_num_codebooks).map (· * m.args.audio_vocab_size))
      (by simp; omega)
    rw [hoffs]
    rw [show broadcastAdd [] (o1 :: o2 :: rest) = .error (.runtimeError
      "The size of tensor a must match the size of tensor b at non-singleton dimension 2") from by
        unfold broadcastAdd
        rw [if_neg (by simp)]]
    exact ⟨_, rfl⟩
  · have hk1 : m.args.audio_num_codebooks = 1 := by omega
    rw [hk1]
    rw [show (List.range 1).map (· * m.args.audio_vocab_size) =
      [0 * m.args.audio_vocab_size] from rfl]
    rw [show broadcastAdd [] [0 * m.args.audio_vocab_size] = .ok ([] : List Nat) from rfl]
    dsimp only
    rw [show (([] : List Nat).map m.audio_embeddings) = ([] : List Vec) from rfl]
    rw [regroupCell_one [] (by simp)]
    dsimp only
    exact catCell_single_error [] (m.text_embeddings x) (by simp [hDt]; omega)

lemma embedCell_wide_error (m : Model) (cell : List Nat) (D slots : Nat)
    (hc : cell.length = slots) (h3 : 3 ≤ slots)
    (hDa : ∀ n, (m.audio_embeddings n).length = D)
    (hDt : ∀ n, (m.text_embeddings n).length = D) (hD1 : 1 ≤ D)
    (hk : 1 ≤ m.args.audio_num_codebooks) (hne : slots ≠ m.args.audio_num_codebooks + 1) :
    ∃ e, m.embedCell cell = .error e := by
  obtain ⟨t, ht⟩ : ∃ t, cell.getLast? = some t := by
    cases hgl : cell.getLast? with
    | none =>
      rw [List.getLast?_eq_none_iff] at hgl
      rw [hgl] at hc
      simp at hc
      omega
    | some t => exact ⟨t, rfl⟩
  have hw : cell.dropLast.length = slots - 1 := by rw [List.length_dropLast, hc]
  unfold Model.embedCell
  rw [ht]
  dsimp only
  by_cases hk1 : m.args.audio_num_codebooks = 1
  · rw [hk1]
    rw [show (List.range 1).map (· * m.args.audio_vocab_size) =
      [0 * m.args.audio_vocab_size] from rfl]
    rw [broadcastAdd_single_off cell.dropLast _ (by omega)]
    dsimp only
    rw [regroupCell_one _ (by simp; omega)]
    dsimp only
    refine catCell_single_error _ (m.text_embeddings t) ?_
    rw [flatten_map_len m.audio_embeddings D hDa, List.length_map, hw, hDt]
    have hmul : 2 * D ≤ (slots - 1) * D := Nat.mul_le_mul_right D (by omega)
    omega
  · have hk2 : 2 ≤ m.args.audio_num_codebooks := by omega
    obtain ⟨e, he⟩ := broadcastAdd_len_error cell.dropLast
      ((List.range m.args.audio_num_codebooks).map (· * m.args.audio_vocab_size))
      (by omega) (by simp; omega) (by simp [hw]; omega)
    rw [he]
    exact ⟨e, rfl⟩

lemma fuseTokens_error_of_embed (m : Model) (tokens : TTensor) (mask : MTensor) (e : PyErr)
    (h : m.embed_tokens tokens = .error e) : m.fuseTokens tokens mask = .error e := by
  unfold Model.fuseTokens
  rw [h]

lemma embed_tokens_error_head (m : Model) (cell0 : List Nat) (row0rest : List (List Nat))
    (trest : List (List (List Nat))) (e : PyErr) (h : m.embedCell cell0 = .error e) :
    m.embed_tokens (.r3 ((cell0 :: row0rest) :: trest)) = .error e := by
  simp only [Model.embed_tokens]
  exact mapE_cons_error _ _ _ _ (mapE_cons_error _ _ _ _ h)

/-- C9: for every rank-3 token frame whose per-step slot count differs
from `audio_num_codebooks + 1`, the embedding-fusion path
(`_embed_tokens` followed by the mask multiply of `generate_frame` /
`forward`) raises an error instead of returning a fused embedding.
Hypotheses: the frame is a regular `b × s × slots` tensor with `b, s ≥ 1`,
the mask has the same shape, every embedding row has the uniform positive
width `D`, and `audio_num_codebooks ≥ 1`. -/
theorem claim_C9_mismatched_slot_count_errors (m : Model)
    (t : List (List (List Nat))) (mrows : List (List (List Bool)))
    (b s slots D : Nat)
    (hb1 : 1 ≤ b) (hs1 : 1 ≤ s)
    (hb : t.length = b) (hrows : ∀ row ∈ t, row.length = s)
    (hcells : ∀ row ∈ t, ∀ cell ∈ row, cell.length = slots)
    (hmb : mrows.length = b) (hmrows : ∀ row ∈ mrows, row.length = s)
    (hmcells : ∀ row ∈ mrows, ∀ cell ∈ row, cell.length = slots)
    (hDa : ∀ n, (m.audio_embeddings n).length = D)
    (hDt : ∀ n, (m.text_embeddings n).length = D)
    (hD1 : 1 ≤ D) (hk : 1 ≤ m.args.audio_num_codebooks)
    (hne : slots ≠ m.args.audio_num_codebooks + 1) :
    ∃ e, m.fuseTokens (.r3 t) (.r3 mrows) = .error e := by
  obtain ⟨row0, trest, rfl⟩ : ∃ row0 trest, t = row0 :: trest := by
    cases t with
    | nil => simp at hb; omega
    | cons row0 trest => exact ⟨row0, trest, rfl⟩
  obtain ⟨cell0, rowrest, hrow0⟩ : ∃ cell0 rowrest, row0 = cell0 :: rowrest := by
    have hrl := hrows row0 (by simp)
    cases row0 with
    | nil => simp at hrl; omega
    | cons c r => exact ⟨c, r, rfl⟩
  subst hrow0
  have hc0 : cell0.length = slots :=
    hcells (cell0 :: rowrest) (by simp) cell0 (by simp)
  cases slots with
  | zero =>
    obtain ⟨e, he⟩ := embedCell_zero_slots_error m cell0 hc0
    exact ⟨e, fuseTokens_error_of_embed m _ _ e
      (embed_tokens_error_head m cell0 rowrest trest e he)⟩
  | succ s1 =>
    cases s1 with
    | zero =>
      obtain ⟨e, he⟩ := embedCell_one_slot_error m cell0 D (by omega) hDt hD1 hk
      exact ⟨e, fuseTokens_error_of_embed m _ _ e
        (embed_tokens_error_head m cell0 rowrest trest e he)⟩
    | succ s2 =>
      cases s2 with
      | succ s3 =>
        obtain ⟨e, he⟩ := embedCell_wide_error m cell0 D _ hc0 (by omega) hDa hDt hD1 hk
          (by omega)
        exact ⟨e, fuseTokens_error_of_embed m _ _ e
          (embed_tokens_error_head m cell0 rowrest trest e he)⟩
      | zero =>
        have hk2 : 2 ≤ m.args.audio_num_codebooks := by omega
        have hcellprop : ∀ row ∈ (cell0 :: rowrest) :: trest, ∃ row2,
            mapE m.embedCell row = .ok row2 ∧
            (row2.length = s ∧ ∀ c ∈ row2, c.length = m.args.audio_num_codebooks + 1) := by
          intro row hrow
          obtain ⟨row2, h1, h2, h3⟩ := mapE_ok_exists m.embedCell
            (fun c => c.length = m.args.audio_num_codebooks + 1) row
            (fun cell hcell => by
              have hcl : cell.length = 2 := by
                have := hcells row hrow cell hcell
                omega
              obtain ⟨out, ho, hol⟩ := embedCell_two_slots_ok m cell D hcl hk2 hDa hDt
              exact ⟨out, ho, hol⟩)
          exact ⟨row2, h1, by rw [h2]; exact hrows row hrow, h3⟩
        obtain ⟨embeds, hemb, hlenE, hPE⟩ := mapE_ok_exists
          (fun row => mapE m.embedCell row)
          (fun row2 => row2.length = s ∧ ∀ c ∈ row2, c.length = m.args.audio_num_codebooks + 1)
          ((cell0 :: rowrest) :: trest) hcellprop
        obtain ⟨e0, erest, rfl⟩ : ∃ e0 erest, embeds = e0 :: erest := by
          cases embeds with
          | nil => simp at hlenE
          | cons e0 erest => exact ⟨e0, erest, rfl⟩
        obtain ⟨m0, mrest, rfl⟩ : ∃ m0 mrest, mrows = m0 :: mrest := by
          cases mrows with
          | nil => simp at hmb; omega
          | cons m0 mrest => exact ⟨m0, mrest, rfl⟩
        obtain ⟨he0len, he0c⟩ := hPE e0 (by simp)
        obtain ⟨ec0, e0r, rfl⟩ : ∃ ec0 e0r, e0 = ec0 :: e0r := by
          cases e0 with
          | nil => simp at he0len; omega
          | cons a r => exact ⟨a, r, rfl⟩
        have hm0len : m0.length = s := hmrows m0 (by simp)
        obtain ⟨mc0, m0r, rfl⟩ : ∃ mc0 m0r, m0 = mc0 :: m0r := by
          cases m0 with
          | nil => simp at hm0len; omega
          | cons a r => exact ⟨a, r, rfl⟩
        have hmc0 : mc0.length = 2 := by
          have := hmcells (mc0 :: m0r) (by simp) mc0 (by simp)
          omega
        have he0c0 : ec0.length = m.args.audio_num_codebooks + 1 := he0c ec0 (by simp)
        obtain ⟨e1, hinner⟩ := bzipE_len_error
          (fun v bb => (.ok (maskSlotMul v bb) : Except PyErr Vec)) ec0 mc0
          (by omega) (by omega) (by omega)
        have hcellmul : maskCellMul ec0 mc0 = .error e1 := hinner
        have hrowerr : bzipE maskCellMul (ec0 :: e0r) (mc0 :: m0r) = .error e1 :=
          bzipE_cons_error maskCellMul ec0 mc0 e0r m0r e1
            (by
              have h1 := he0len
              have h2 := hm0len
              simp at h1 h2
              omega) hcellmul
        have houter : bzipE (fun erow mrow => bzipE maskCellMul erow mrow)
            ((ec0 :: e0r) :: erest) ((mc0 :: m0r) :: mrest) = .error e1 :=
          bzipE_cons_error _ _ _ _ _ e1
            (by
              have h1 := hlenE
              have h2 := hb
              have h3 := hmb
              simp at h1 h2 h3
              omega) hrowerr
        refine ⟨e1, ?_⟩
        unfold Model.fuseTokens
        rw [show m.embed_tokens (.r3 ((cell0 :: rowrest) :: trest)) =
          .ok ((ec0 :: e0r) :: erest) from hemb]
        dsimp only
        rw [houter]

/-- Witness for C9: on the two-codebook model `Mc2` a frame whose cells
carry 2 slots instead of the required 3 makes the fusion path error. -/
theorem claim_C9_witness :
    ∃ e, Mc2.fuseTokens (.r3 [[[1, 0]]]) (.r3 [[[true, true]]]) = .error e :=
  claim_C9_mismatched_slot_count_errors Mc2 [[[1, 0]]] [[[true, true]]] 1 1 2 1
    (by decide) (by decide) (by decide) (by decide) (by decide)
    (by decide) (by decide) (by decide)
    (fun _ => rfl) (fun _ => rfl) (by decide) (by decide) (by decide)
